import Mathlib

/-!
Verification of the metadata resolver
(`src/modules/@angular/compiler/src/metadata_resolver.ts`) against its
specification. The TypeScript module is shallowly embedded: JavaScript
runtime values are modelled by the inductive `RVal` (arrays as nil/cons
chains, `null`/`undefined` as `vnull`), the resolver's injected
collaborators (reflector, directive/pipe/view resolvers, URL helpers) by a
record of functions `ResolverEnv`, the mutable fields of
`CompileMetadataResolver` by explicit state records threaded through every
function, and thrown `BaseException`s by `Except String`.
-/

/-- The apostrophe character, used when building error-message strings. -/
def apos : String := String.singleton (Char.ofNat 39)

/-- Decimal digit character (models JavaScript number-to-string at one digit). -/
def digitChar : Nat → Char
  | 0 => '0' | 1 => '1' | 2 => '2' | 3 => '3' | 4 => '4'
  | 5 => '5' | 6 => '6' | 7 => '7' | 8 => '8' | _ => '9'

/-- Decimal digit list of a natural number, most significant first.
Models the JavaScript template interpolation of a number. -/
def natChars (n : Nat) : List Char :=
  if n < 10 then [digitChar n]
  else natChars (n / 10) ++ [digitChar (n % 10)]
decreasing_by exact Nat.div_lt_self (by omega) (by omega)

/-- Decimal rendering of a natural number (JavaScript template interpolation). -/
def natStr (n : Nat) : String := String.mk (natChars n)

/-- Does the string contain the character (models `indexOf(c) >= 0`)? -/
def strHasChar (s : String) (c : Char) : Bool := s.data.any (fun x => x == c)

/-- Auxiliary substring scan over character lists. -/
def infixAux (sub : List Char) : List Char → Bool
  | [] => sub.isEmpty
  | x :: t => sub.isPrefixOf (x :: t) || infixAux sub t

/-- Does `s` contain `sub` as a substring (models `indexOf(sub) !== -1`)? -/
def strContains (s sub : String) : Bool := infixAux sub.data s.data

/-- JavaScript runtime values as the resolver sees them.  Arrays are nil/cons
chains (`vnil`/`vcons`), `null`/`undefined` is `vnull`.  Classes/functions are
`vtype` (carrying an identity and their `stringify` text), static symbols are
`vstatic`, forward references wrap their target in `vfwd`.  The parameter
qualifier objects (`HostMetadata`, `SelfMetadata`, `SkipSelfMetadata`,
`OptionalMetadata`, `AttributeMetadata`, `QueryMetadata`/`ViewQueryMetadata`,
`InjectMetadata`) and `Provider` instances / provider literals are dedicated
constructors; every other object is `vother` (identity plus stringify text). -/
inductive RVal where
  | vnull
  | vstr (s : String)
  | vnil
  | vcons (hd tl : RVal)
  | vtype (tid : Nat) (nm : String)
  | vstatic (name : String) (filePath : String)
  | vfwd (v : RVal)
  | vhost
  | vself
  | vskipSelf
  | voptional
  | vattr (attributeName : RVal)
  | vquery (qid : Nat) (isViewQuery : Bool) (isVarBinding : Bool)
      (varBindings : RVal) (selector : RVal) (first : Bool)
      (descendants : Bool) (read : RVal)
  | vinject (token : RVal)
  | vprovider (token useClass useValue useFactory useExisting deps : RVal)
      (multi : Bool)
  | vliteral (token useClass useValue useFactory useExisting deps : RVal)
      (multi : Bool)
  | vother (oid : Nat) (nm : String)
deriving DecidableEq, Repr, Inhabited

/-- Is the value a JavaScript array (models `isArray`)? -/
def RVal.isArray : RVal → Bool
  | .vnil | .vcons .. => true
  | _ => false

/-- The elements of an array value, in order. -/
def RVal.toList : RVal → List RVal
  | .vcons h t => h :: t.toList
  | _ => []

/-- An array value with the given elements. -/
def RVal.ofList : List RVal → RVal
  | [] => .vnil
  | v :: rest => .vcons v (RVal.ofList rest)

/-- Models `resolveForwardRef` from `@angular/core`: unwrap a forward
reference once, return every other value unchanged. -/
def resolveForwardRef : RVal → RVal
  | .vfwd v => v
  | v => v

/-- Models `isBlank` from the language facade: `null`/`undefined` only. -/
def isBlank : RVal → Bool
  | .vnull => true
  | _ => false

/-- Models `isPresent` from the language facade. -/
def isPresent (v : RVal) : Bool := !(isBlank v)

/-- Models `isString` from the language facade. -/
def isString : RVal → Bool
  | .vstr _ => true
  | _ => false

/-- Models `isValidType` of the resolver module: a static symbol or an
instance of `Type`. -/
def isValidType : RVal → Bool
  | .vstatic .. => true
  | .vtype .. => true
  | _ => false

/-- Models `staticTypeModuleUrl`: a static symbol's file path, else null. -/
def staticTypeModuleUrl : RVal → Option String
  | .vstatic _ p => some p
  | _ => none

/-- Modelled from the spec: `stringify` of the language facade (the facade
itself is not among the analysed sources).  A string is itself, `null`
renders as "null", classes/functions/other objects render their carried
text, arrays join their elements with commas, a forward reference renders
its target. -/
def stringify : RVal → String
  | .vnull => "null"
  | .vstr s => s
  | .vnil => ""
  | .vcons h .vnil => stringify h
  | .vcons h (.vcons h2 t2) => stringify h ++ "," ++ stringify (.vcons h2 t2)
  | .vcons h _ => stringify h
  | .vtype _ nm => nm
  | .vstatic n _ => n
  | .vfwd v => stringify v
  | .vhost => "Host"
  | .vself => "Self"
  | .vskipSelf => "SkipSelf"
  | .voptional => "Optional"
  | .vattr _ => "Attribute"
  | .vquery .. => "Query"
  | .vinject _ => "Inject"
  | .vprovider .. => "Provider"
  | .vliteral .. => "Object"
  | .vother _ nm => nm

/-- Modelled from the spec: `sanitizeIdentifier` from `./util` (not among the
analysed sources): every non-word character is replaced by an underscore. -/
def sanitizeIdentifier (name : String) : String :=
  String.mk (name.data.map (fun c => if c.isAlphanum || c == '_' then c else '_'))

/-- The anonymous-naming state of the resolver: the `_anonymousTypes` map
(association list keyed by value identity, i.e. `RVal` equality) and the
`_anonymousTypeIndex` counter. -/
structure AnonState where
  anonymousTypes : List (RVal × Nat)
  anonymousTypeIndex : Nat
deriving DecidableEq, Repr, Inhabited

/-- Lookup in an association list keyed by `RVal` (models `Map.get`). -/
def findEntry {α : Type} : List (RVal × α) → RVal → Option α
  | [], _ => none
  | (k, v) :: rest, key => if k = key then some v else findEntry rest key

/-- Insert-or-replace in an association list (models `Map.set`: an existing
key keeps its position, a new key is appended). -/
def setEntry {α : Type} : List (RVal × α) → RVal → α → List (RVal × α)
  | [], key, v => [(key, v)]
  | (k, w) :: rest, key, v =>
    if k = key then (k, v) :: rest else (k, w) :: setEntry rest key v

/-- Remove a key from an association list (models `Map.delete`). -/
def delEntry {α : Type} : List (RVal × α) → RVal → List (RVal × α)
  | [], _ => []
  | (k, w) :: rest, key =>
    if k = key then delEntry rest key else (k, w) :: delEntry rest key

/-- `sanitizeTokenName` of `CompileMetadataResolver`: stringify the token;
if the text contains an opening parenthesis the token is anonymous and gets
the synthetic name `anonymous_token_<N>_`, with `N` looked up in (or freshly
added to) the anonymous-identity map; the result is sanitized. -/
def sanitizeTokenName (token : RVal) (a : AnonState) : String × AnonState :=
  let identifier := stringify token
  if strHasChar identifier '(' then
    match findEntry a.anonymousTypes token with
    | some found =>
      (sanitizeIdentifier ("anonymous_token_" ++ natStr found ++ "_"), a)
    | none =>
      let idx := a.anonymousTypeIndex
      (sanitizeIdentifier ("anonymous_token_" ++ natStr idx ++ "_"),
       { anonymousTypes := setEntry a.anonymousTypes token idx,
         anonymousTypeIndex := idx + 1 })
  else (sanitizeIdentifier identifier, a)

/-- Output record `cpl.CompileIdentifierMetadata` (an empty `name` stands for
an absent one). -/
structure CompileIdentifierMetadata where
  runtime : Option RVal
  name : String
  moduleUrl : Option String
deriving DecidableEq, Repr, Inhabited

/-- Output record `cpl.CompileTokenMetadata`: a literal string value or an
identifier. -/
structure CompileTokenMetadata where
  value : Option String
  identifier : Option CompileIdentifierMetadata
deriving DecidableEq, Repr, Inhabited

/-- Modelled from the spec: the `name` getter of `cpl.CompileTokenMetadata`
(its module is not among the analysed sources), which is what `stringify`
renders for a token record: the sanitized literal value if present, else the
identifier's name. -/
def CompileTokenMetadata.strName (t : CompileTokenMetadata) : String :=
  match t.value with
  | some v => sanitizeIdentifier v
  | none =>
    match t.identifier with
    | some i => i.name
    | none => "null"

/-- `getTokenMetadata`: a string becomes a value token, anything else an
identifier token named by `sanitizeTokenName`. -/
def getTokenMetadata (token : RVal) (a : AnonState) :
    CompileTokenMetadata × AnonState :=
  let token := resolveForwardRef token
  match token with
  | .vstr s => ({ value := some s, identifier := none }, a)
  | _ =>
    let (nm, a1) := sanitizeTokenName token a
    ({ value := none,
       identifier := some { runtime := some token, name := nm,
                            moduleUrl := staticTypeModuleUrl token } }, a1)

/-- Output record `cpl.CompileQueryMetadata`. -/
structure CompileQueryMetadata where
  selectors : List CompileTokenMetadata
  first : Bool
  descendants : Bool
  propertyName : Option String
  read : Option CompileTokenMetadata
deriving DecidableEq, Repr, Inhabited

/-- Property reads on a raw `QueryMetadata` object (JavaScript property
access, defaulting like an absent property on a non-query value). -/
def RVal.qIsViewQuery : RVal → Bool
  | .vquery _ ivq .. => ivq
  | _ => false

/-- Property read `isVarBindingQuery` on a raw query object. -/
def RVal.qIsVarBinding : RVal → Bool
  | .vquery _ _ ivb .. => ivb
  | _ => false

/-- Property read `varBindings` on a raw query object. -/
def RVal.qVarBindings : RVal → RVal
  | .vquery _ _ _ vb .. => vb
  | _ => .vnull

/-- Property read `selector` on a raw query object. -/
def RVal.qSelector : RVal → RVal
  | .vquery _ _ _ _ sel .. => sel
  | _ => .vnull

/-- Property read `first` on a raw query object. -/
def RVal.qFirst : RVal → Bool
  | .vquery _ _ _ _ _ f .. => f
  | _ => false

/-- Property read `descendants` on a raw query object. -/
def RVal.qDescendants : RVal → Bool
  | .vquery _ _ _ _ _ _ d _ => d
  | _ => false

/-- Property read `read` on a raw query object. -/
def RVal.qRead : RVal → RVal
  | .vquery _ _ _ _ _ _ _ r => r
  | _ => .vnull

/-- Resolve a list of values to token records, threading the naming state
(models a `.map(... getTokenMetadata ...)`). -/
def mapGetTokens : List RVal → AnonState → List CompileTokenMetadata × AnonState
  | [], a => ([], a)
  | v :: rest, a =>
    let (t, a1) := getTokenMetadata v a
    let (ts, a2) := mapGetTokens rest a1
    (t :: ts, a2)

/-- `getQueryMetadata`: a variable-binding query resolves each bound name to
a value token; a selector query needs a present selector, else the call
fails naming the property and owner; `read` is resolved when present. -/
def getQueryMetadata (q : RVal) (propertyName : Option String)
    (typeOrFunc : RVal) (a : AnonState) :
    Except String CompileQueryMetadata × AnonState :=
  if q.qIsVarBinding then
    let (sels, a1) := mapGetTokens q.qVarBindings.toList a
    let (readTok, a2) :=
      if isPresent q.qRead then
        let (t, a2) := getTokenMetadata q.qRead a1
        (some t, a2)
      else (none, a1)
    (.ok { selectors := sels, first := q.qFirst, descendants := q.qDescendants,
           propertyName := propertyName, read := readTok }, a2)
  else
    if isPresent q.qSelector then
      let (selTok, a1) := getTokenMetadata q.qSelector a
      let (readTok, a2) :=
        if isPresent q.qRead then
          let (t, a2) := getTokenMetadata q.qRead a1
          (some t, a2)
        else (none, a1)
      (.ok { selectors := [selTok], first := q.qFirst,
             descendants := q.qDescendants, propertyName := propertyName,
             read := readTok }, a2)
    else
      (.error ("Can" ++ apos ++ "t construct a query for the property \"" ++
        (propertyName.getD "null") ++ "\" of \"" ++ stringify typeOrFunc ++
        "\" since the query selector wasn" ++ apos ++ "t defined."), a)

/-- Output record `cpl.CompileDiDependencyMetadata`. -/
structure CompileDiDependencyMetadata where
  isAttribute : Bool
  isHost : Bool
  isSelf : Bool
  isSkipSelf : Bool
  isOptional : Bool
  query : Option CompileQueryMetadata
  viewQuery : Option CompileQueryMetadata
  token : CompileTokenMetadata
deriving DecidableEq, Repr, Inhabited

/-- The accumulator of the per-parameter qualifier scan in
`getDependenciesMetadata` (JavaScript locals start as `false`/`null`). -/
structure ScanAcc where
  isAttribute : Bool
  isHost : Bool
  isSelf : Bool
  isSkipSelf : Bool
  isOptional : Bool
  query : RVal
  viewQuery : RVal
  token : RVal
deriving DecidableEq, Repr, Inhabited

/-- The initial scan accumulator. -/
def scanInit : ScanAcc :=
  { isAttribute := false, isHost := false, isSelf := false, isSkipSelf := false,
    isOptional := false, query := .vnull, viewQuery := .vnull, token := .vnull }

/-- One step of the qualifier scan: the `instanceof` cascade of the
`forEach` body in `getDependenciesMetadata`. -/
def scanDiEntry (acc : ScanAcc) (paramEntry : RVal) : ScanAcc :=
  match paramEntry with
  | .vhost => { acc with isHost := true }
  | .vself => { acc with isSelf := true }
  | .vskipSelf => { acc with isSkipSelf := true }
  | .voptional => { acc with isOptional := true }
  | .vattr attributeName =>
    { acc with isAttribute := true, token := attributeName }
  | .vquery .. =>
    if paramEntry.qIsViewQuery then { acc with viewQuery := paramEntry }
    else { acc with query := paramEntry }
  | .vinject tok => { acc with token := tok }
  | _ =>
    if isValidType paramEntry && isBlank acc.token then
      { acc with token := paramEntry }
    else acc

/-- One parameter of `getDependenciesMetadata`: scan its qualifier list (or
take a plain value as the token); a blank token marks the parameter
unresolved (`ok none`), otherwise build the dependency record, resolving
query, view query and token. -/
def dependencyOf (typeOrFunc param : RVal) (a : AnonState) :
    Except String (Option CompileDiDependencyMetadata) × AnonState :=
  let acc :=
    if param.isArray then param.toList.foldl scanDiEntry scanInit
    else { scanInit with token := param }
  if isBlank acc.token then (.ok none, a)
  else
    match
      ((if isPresent acc.query then
        match getQueryMetadata acc.query none typeOrFunc a with
        | (.error e, a1) => (.error e, a1)
        | (.ok qm, a1) => (.ok (some qm), a1)
      else (.ok none, a)) :
        Except String (Option CompileQueryMetadata) × AnonState) with
    | (.error e, a1) => (.error e, a1)
    | (.ok queryMeta, a1) =>
      match
        ((if isPresent acc.viewQuery then
          match getQueryMetadata acc.viewQuery none typeOrFunc a1 with
          | (.error e, a2) => (.error e, a2)
          | (.ok qm, a2) => (.ok (some qm), a2)
        else (.ok none, a1)) :
          Except String (Option CompileQueryMetadata) × AnonState) with
      | (.error e, a2) => (.error e, a2)
      | (.ok viewQueryMeta, a2) =>
        let (tok, a3) := getTokenMetadata acc.token a2
        (.ok (some { isAttribute := acc.isAttribute, isHost := acc.isHost,
                     isSelf := acc.isSelf, isSkipSelf := acc.isSkipSelf,
                     isOptional := acc.isOptional, query := queryMeta,
                     viewQuery := viewQueryMeta, token := tok }), a3)

/-- The parameter map of `getDependenciesMetadata`: each entry is `none`
for an unresolved parameter, `some` for a resolved one; a thrown error
aborts the rest. -/
def dependenciesOf (typeOrFunc : RVal) :
    List RVal → AnonState →
    Except String (List (Option CompileDiDependencyMetadata)) × AnonState
  | [], a => (.ok [], a)
  | p :: rest, a =>
    match dependencyOf typeOrFunc p a with
    | (.error e, a1) => (.error e, a1)
    | (.ok d, a1) =>
      match dependenciesOf typeOrFunc rest a1 with
      | (.error e, a2) => (.error e, a2)
      | (.ok ds, a2) => (.ok (d :: ds), a2)

/-- A raw animation style record: what `getAnimationStyleMetadata` reads
from an `AnimationStyleMetadata` (`offset` and `styles`). -/
structure CAStyle where
  offset : Option Int
  styles : List String
deriving DecidableEq, Repr, Inhabited

/-- Raw animation nodes as fed to `getAnimationMetadata` and
`getAnimationStateMetadata`: one constructor per concrete class of the
animation sub-grammar (`AnimationStyleMetadata`,
`AnimationKeyframesSequenceMetadata`, `AnimationAnimateMetadata`,
`AnimationGroupMetadata`, `AnimationSequenceMetadata`,
`AnimationStateDeclarationMetadata`, `AnimationStateTransitionMetadata`),
step lists as `anil`/`acons` chains, and `aother` for a value that is an
instance of none of them. -/
inductive AnimNode where
  | style (offset : Option Int) (styles : List String)
  | keyframes (steps : List CAStyle)
  | animate (timings : String) (styles : AnimNode)
  | group (steps : AnimNode)
  | sequence (steps : AnimNode)
  | stateDeclaration (stateNameExpr : String) (styles : CAStyle)
  | stateTransition (stateChangeExpr : String) (steps : AnimNode)
  | anil
  | acons (hd tl : AnimNode)
  | aother (oid : Nat)
deriving DecidableEq, Repr, Inhabited

/-- Output of `getAnimationMetadata`: the `cpl.CompileAnimation*` records,
with `cnull` for the JavaScript `null` result and `cnil`/`ccons` chains for
mapped step lists. -/
inductive CompileAnimationMetadata where
  | style (m : CAStyle)
  | keyframes (steps : List CAStyle)
  | animate (timings : String) (styles : CompileAnimationMetadata)
  | group (steps : CompileAnimationMetadata)
  | sequence (steps : CompileAnimationMetadata)
  | cnil
  | ccons (hd tl : CompileAnimationMetadata)
  | cnull
deriving DecidableEq, Repr, Inhabited

/-- Output of `getAnimationStateMetadata` (`snull` is the `null` result). -/
inductive CompileAnimationStateMetadata where
  | declaration (stateNameExpr : String) (styles : CAStyle)
  | transition (stateChangeExpr : String) (steps : CompileAnimationMetadata)
  | snull
deriving DecidableEq, Repr, Inhabited

/-- `getAnimationStyleMetadata`: copy offset and styles into a
`CompileAnimationStyleMetadata`. -/
def getAnimationStyleMetadata (value : CAStyle) : CAStyle :=
  { offset := value.offset, styles := value.styles }

mutual

/-- `getAnimationMetadata`: dispatch on the concrete animation node class
(style, keyframes sequence, animate, then the with-steps classes group and
sequence); any other shape yields `null`. -/
def getAnimationMetadata : AnimNode → CompileAnimationMetadata
  | .style off sts =>
    .style (getAnimationStyleMetadata { offset := off, styles := sts })
  | .keyframes steps => .keyframes (steps.map getAnimationStyleMetadata)
  | .animate timings styles => .animate timings (getAnimationMetadata styles)
  | .group steps => .group (mapAnimationSteps steps)
  | .sequence steps => .sequence (mapAnimationSteps steps)
  | _ => .cnull

/-- The `steps.map(step => this.getAnimationMetadata(step))` of the
with-steps branch, over an `anil`/`acons` chain. -/
def mapAnimationSteps : AnimNode → CompileAnimationMetadata
  | .acons h t => .ccons (getAnimationMetadata h) (mapAnimationSteps t)
  | _ => .cnil

end

/-- `getAnimationStateMetadata`: a state declaration or a state transition;
any other shape yields `null`. -/
def getAnimationStateMetadata : AnimNode → CompileAnimationStateMetadata
  | .stateDeclaration n sty => .declaration n (getAnimationStyleMetadata sty)
  | .stateTransition e steps => .transition e (getAnimationMetadata steps)
  | _ => .snull

/-- A raw `AnimationEntryMetadata` (name plus state definitions). -/
structure AnimEntry where
  name : String
  definitions : List AnimNode
deriving DecidableEq, Repr, Inhabited

/-- Output record `cpl.CompileAnimationEntryMetadata`. -/
structure CompileAnimationEntryMetadata where
  name : String
  definitions : List CompileAnimationStateMetadata
deriving DecidableEq, Repr, Inhabited

/-- `getAnimationEntryMetadata`: map the state resolver over the entry's
definitions. -/
def getAnimationEntryMetadata (entry : AnimEntry) :
    CompileAnimationEntryMetadata :=
  { name := entry.name,
    definitions := entry.definitions.map getAnimationStateMetadata }

/-- A raw directive/component annotation as the directive resolver
collaborator returns it (`DirectiveMetadata` / `ComponentMetadata`):
`isComponent` distinguishes the component subclass; absent object fields are
`vnull` valued (`providers`, `viewProviders`, `precompile`) or `none`. -/
structure DirAnn where
  isComponent : Bool
  selector : Option String
  exportAs : Option String
  inputs : List String
  outputs : List String
  host : List (String × String)
  providers : RVal
  queries : Option (List (String × RVal))
  changeDetection : Option Nat
  viewProviders : RVal
  moduleId : Option String
  precompile : RVal
deriving DecidableEq, Repr, Inhabited

/-- A raw pipe annotation as the pipe resolver collaborator returns it. -/
structure PipeAnn where
  name : String
  pure : Bool
deriving DecidableEq, Repr, Inhabited

/-- A raw view descriptor as the view resolver collaborator returns it
(`ViewMetadata`). -/
structure ViewAnn where
  encapsulation : Option Nat
  template : Option String
  templateUrl : Option String
  styles : RVal
  styleUrls : RVal
  animations : Option (List AnimEntry)
  interpolation : RVal
deriving DecidableEq, Repr, Inhabited

/-- A raw `AppModuleMetadata` annotation (absent fields are `vnull`). -/
structure ModuleAnn where
  providers : RVal
  directives : RVal
  pipes : RVal
  precompile : RVal
  modules : RVal
deriving DecidableEq, Repr, Inhabited

/-- One raw annotation as the reflector's `annotations` returns them: an
`AppModuleMetadata` or something else. -/
inductive Ann where
  | appModule (m : ModuleAnn)
  | otherAnn (oid : Nat)
deriving DecidableEq, Repr, Inhabited

/-- The injected collaborators of `CompileMetadataResolver`: the reflector
(`annotations`, `parameters`, `importUri`), the directive, pipe and view
resolvers (which throw, hence `Except`), and the URL-scheme detector used by
`componentModuleUrl`. -/
structure ResolverEnv where
  annotations : RVal → List Ann
  parameters : RVal → RVal
  importUri : RVal → String
  directiveResolver : RVal → Except String DirAnn
  pipeResolver : RVal → Except String PipeAnn
  viewResolver : RVal → Except String ViewAnn
  lifecycleHook : Nat → RVal → Bool
  getUrlScheme : String → String

/-- Modelled from the spec: `LIFECYCLE_HOOKS_VALUES`, the fixed canonical
ordered set of lifecycle hook kinds (its module is not among the analysed
sources); the eight hooks are represented by `0`..`7`. -/
def LIFECYCLE_HOOKS_VALUES : List Nat := [0, 1, 2, 3, 4, 5, 6, 7]

/-- `getDependenciesMetadata`: take the explicit dependencies if present,
else the reflector's parameters (blank becomes the empty list); map each
parameter; if any parameter was unresolved, throw an error listing every
parameter's token text or `?`; else return the dependency list. -/
def getDependenciesMetadata (env : ResolverEnv) (typeOrFunc : RVal)
    (dependencies : RVal) (a : AnonState) :
    Except String (List CompileDiDependencyMetadata) × AnonState :=
  let params :=
    if isPresent dependencies then dependencies else env.parameters typeOrFunc
  let params := if isBlank params then RVal.vnil else params
  match dependenciesOf typeOrFunc params.toList a with
  | (.error e, a1) => (.error e, a1)
  | (.ok ds, a1) =>
    if ds.any (fun d => d.isNone) then
      let depsTokens := String.intercalate ", "
        (ds.map (fun d => match d with
          | some dep => dep.token.strName
          | none => "?"))
      (.error ("Can" ++ apos ++ "t resolve all parameters for " ++
        stringify typeOrFunc ++ ": (" ++ depsTokens ++ ")."), a1)
    else (.ok (ds.filterMap id), a1)

/-- Output record `cpl.CompileTypeMetadata`. -/
structure CompileTypeMetadata where
  name : String
  moduleUrl : Option String
  runtime : RVal
  diDeps : List CompileDiDependencyMetadata
deriving DecidableEq, Repr, Inhabited

/-- Output record `cpl.CompileFactoryMetadata`. -/
structure CompileFactoryMetadata where
  name : String
  moduleUrl : Option String
  runtime : RVal
  diDeps : List CompileDiDependencyMetadata
deriving DecidableEq, Repr, Inhabited

/-- `getTypeMetadata`: dereference the forward reference, name the type via
`sanitizeTokenName`, resolve its constructor dependencies. -/
def getTypeMetadata (env : ResolverEnv) (type : RVal)
    (moduleUrl : Option String) (dependencies : RVal) (a : AnonState) :
    Except String CompileTypeMetadata × AnonState :=
  let type := resolveForwardRef type
  let (nm, a1) := sanitizeTokenName type a
  match getDependenciesMetadata env type dependencies a1 with
  | (.error e, a2) => (.error e, a2)
  | (.ok dd, a2) =>
    (.ok { name := nm, moduleUrl := moduleUrl, runtime := type,
           diDeps := dd }, a2)

/-- `getFactoryMetadata`: the factory-callable analogue of
`getTypeMetadata`. -/
def getFactoryMetadata (env : ResolverEnv) (factory : RVal)
    (moduleUrl : Option String) (dependencies : RVal) (a : AnonState) :
    Except String CompileFactoryMetadata × AnonState :=
  let factory := resolveForwardRef factory
  let (nm, a1) := sanitizeTokenName factory a
  match getDependenciesMetadata env factory dependencies a1 with
  | (.error e, a2) => (.error e, a2)
  | (.ok dd, a2) =>
    (.ok { name := nm, moduleUrl := moduleUrl, runtime := factory,
           diDeps := dd }, a2)

/-- Property read `token` on a raw provider. -/
def RVal.pToken : RVal → RVal
  | .vprovider t .. => t
  | .vliteral t .. => t
  | _ => .vnull

/-- Property read `useClass` on a raw provider. -/
def RVal.pUseClass : RVal → RVal
  | .vprovider _ uc .. => uc
  | .vliteral _ uc .. => uc
  | _ => .vnull

/-- Property read `useValue` on a raw provider. -/
def RVal.pUseValue : RVal → RVal
  | .vprovider _ _ uv .. => uv
  | .vliteral _ _ uv .. => uv
  | _ => .vnull

/-- Property read `useFactory` on a raw provider. -/
def RVal.pUseFactory : RVal → RVal
  | .vprovider _ _ _ uf .. => uf
  | .vliteral _ _ _ uf .. => uf
  | _ => .vnull

/-- Property read `useExisting` on a raw provider. -/
def RVal.pUseExisting : RVal → RVal
  | .vprovider _ _ _ _ ue .. => ue
  | .vliteral _ _ _ _ ue .. => ue
  | _ => .vnull

/-- Property read `dependencies` on a raw provider. -/
def RVal.pDeps : RVal → RVal
  | .vprovider _ _ _ _ _ d _ => d
  | .vliteral _ _ _ _ _ d _ => d
  | _ => .vnull

/-- Property read `multi` on a raw provider. -/
def RVal.pMulti : RVal → Bool
  | .vprovider _ _ _ _ _ _ m => m
  | .vliteral _ _ _ _ _ _ m => m
  | _ => false

/-- Models `createProvider` from the private core API (not among the
analysed sources): convert a provider literal into a `Provider` instance
with the same fields. -/
def createProvider : RVal → RVal
  | .vliteral t uc uv uf ue d m => .vprovider t uc uv uf ue d m
  | v => v

/-- Models `isProviderLiteral` from the private core API: a plain string map
carrying a `provide` key. -/
def isProviderLiteral : RVal → Bool
  | .vliteral .. => true
  | _ => false

/-- A `useValue` after `convertToCompileValue`: either the value itself (for
blanks, primitives, arrays and maps) or an identifier record. -/
inductive CompileValue where
  | prim (v : RVal)
  | ident (i : CompileIdentifierMetadata)
deriving DecidableEq, Repr, Inhabited

/-- Modelled from the spec: `convertToCompileValue` (via `util`'s
`visitValue` and `_CompileValueConverter`, not among the analysed sources):
a static symbol becomes a name/moduleUrl identifier, primitives, blanks and
container values pass through, any other object is wrapped as a
runtime-only identifier. -/
def convertToCompileValue : RVal → CompileValue
  | .vstatic n p => .ident { runtime := none, name := n, moduleUrl := some p }
  | .vnull => .prim .vnull
  | .vstr s => .prim (.vstr s)
  | .vnil => .prim .vnil
  | .vcons h t => .prim (.vcons h t)
  | v => .ident { runtime := some v, name := "", moduleUrl := none }

/-- Output record `cpl.CompileProviderMetadata`. -/
structure CompileProviderMetadata where
  token : CompileTokenMetadata
  useClass : Option CompileTypeMetadata
  useValue : CompileValue
  useFactory : Option CompileFactoryMetadata
  useExisting : Option CompileTokenMetadata
  deps : Option (List CompileDiDependencyMetadata)
  multi : Bool
deriving DecidableEq, Repr, Inhabited

/-- `getProviderMetadata`: resolve the `useClass` or `useFactory` strategy
(carrying over its dependency list), then assemble the provider record with
its token, converted `useValue` and optional `useExisting` token. -/
def getProviderMetadata (env : ResolverEnv) (provider : RVal)
    (a : AnonState) : Except String CompileProviderMetadata × AnonState :=
  match
    ((if isPresent provider.pUseClass then
        match getTypeMetadata env provider.pUseClass
            (staticTypeModuleUrl provider.pUseClass) provider.pDeps a with
        | (.error e, a1) => (.error e, a1)
        | (.ok tm, a1) => (.ok (some tm, none), a1)
      else if isPresent provider.pUseFactory then
        match getFactoryMetadata env provider.pUseFactory
            (staticTypeModuleUrl provider.pUseFactory) provider.pDeps a with
        | (.error e, a1) => (.error e, a1)
        | (.ok fm, a1) => (.ok (none, some fm), a1)
      else (.ok (none, none), a)) :
      Except String (Option CompileTypeMetadata × Option CompileFactoryMetadata)
        × AnonState) with
  | (.error e, a1) => (.error e, a1)
  | (.ok (compileTypeMetadata, compileFactoryMetadata), a1) =>
    let compileDeps : Option (List CompileDiDependencyMetadata) :=
      match compileTypeMetadata, compileFactoryMetadata with
      | some tm, _ => some tm.diDeps
      | none, some fm => some fm.diDeps
      | none, none => none
    let (tok, a2) := getTokenMetadata provider.pToken a1
    let (useExistingTok, a3) :=
      if isPresent provider.pUseExisting then
        let (t, a3) := getTokenMetadata provider.pUseExisting a2
        (some t, a3)
      else (none, a2)
    (.ok { token := tok, useClass := compileTypeMetadata,
           useValue := convertToCompileValue provider.pUseValue,
           useFactory := compileFactoryMetadata,
           useExisting := useExistingTok, deps := compileDeps,
           multi := provider.pMulti }, a3)

/-- The result shape of `getProvidersMetadata`: the mapped array.  A leaf is
a provider record (`prov`) or a bare-type record (`typ`); a nested input
sub-list maps to a nested chain element, so chains (`pnil`/`pcons`) appear
both as the overall result and as elements. -/
inductive PMetaNode where
  | prov (p : CompileProviderMetadata)
  | typ (t : CompileTypeMetadata)
  | pnil
  | pcons (hd tl : PMetaNode)
deriving DecidableEq, Repr, Inhabited

/-- The elements of a chain result, in order. -/
def PMetaNode.toList : PMetaNode → List PMetaNode
  | .pcons h t => h :: t.toList
  | _ => []

/-- The classification of one (forward-dereferenced, non-array) entry of a
provider list: a `Provider` instance is normalized, a provider literal is
converted then normalized, a bare valid type maps to its type metadata, and
anything else throws. -/
def providerEntry (env : ResolverEnv) (provider : RVal) (a : AnonState) :
    Except String PMetaNode × AnonState :=
  match provider with
  | .vprovider .. =>
    match getProviderMetadata env provider a with
    | (.error e, a1) => (.error e, a1)
    | (.ok p, a1) => (.ok (.prov p), a1)
  | .vliteral .. =>
    match getProviderMetadata env (createProvider provider) a with
    | (.error e, a1) => (.error e, a1)
    | (.ok p, a1) => (.ok (.prov p), a1)
  | _ =>
    if isValidType provider then
      match getTypeMetadata env provider (staticTypeModuleUrl provider)
          .vnull a with
      | (.error e, a1) => (.error e, a1)
      | (.ok t, a1) => (.ok (.typ t), a1)
    else
      (.error ("Invalid provider - only instances of Provider and Type are allowed, got: "
        ++ stringify provider), a)

/-- `getProvidersMetadata`: `providers.map(...)` where each entry is
forward-dereferenced and then either recursively mapped (when it is itself
an array, keeping the nesting) or classified by `providerEntry`. -/
def getProvidersMetadata (env : ResolverEnv) :
    RVal → AnonState → Except String PMetaNode × AnonState
  | .vcons (.vfwd u) t, a =>
    match (if u.isArray then getProvidersMetadata env u a
           else providerEntry env u a) with
    | (.error e, a1) => (.error e, a1)
    | (.ok x, a1) =>
      match getProvidersMetadata env t a1 with
      | (.error e, a2) => (.error e, a2)
      | (.ok xs, a2) => (.ok (.pcons x xs), a2)
  | .vcons h t, a =>
    match (if h.isArray then getProvidersMetadata env h a
           else providerEntry env h a) with
    | (.error e, a1) => (.error e, a1)
    | (.ok x, a1) =>
      match getProvidersMetadata env t a1 with
      | (.error e, a2) => (.error e, a2)
      | (.ok xs, a2) => (.ok (.pcons x xs), a2)
  | _, a => (.ok .pnil, a)

/-- `flattenArray`: pre-order flattening of a nested array, dereferencing
forward references on the way (the `out` accumulator of the source is the
returned list). -/
def flattenArr : RVal → List RVal
  | .vcons (.vfwd u) t => (if u.isArray then flattenArr u else [u]) ++ flattenArr t
  | .vcons h t => (if h.isArray then flattenArr h else [h]) ++ flattenArr t
  | _ => []

/-- `verifyNonBlankProviders`: flatten the tree; if any flattened entry is
blank, throw an error listing every entry (blanks as `?`); else return the
original tree. -/
def verifyNonBlankProviders (directiveType : RVal) (providersTree : RVal)
    (providersType : String) : Except String RVal :=
  let flat := flattenArr providersTree
  if flat.any (fun p => isBlank p) then
    .error ("One or more of " ++ providersType ++ " for \"" ++
      stringify directiveType ++ "\" were not defined: [" ++
      String.intercalate ", "
        (flat.map (fun p => if isBlank p then "?" else stringify p)) ++ "].")
  else .ok providersTree

/-- Map `getTypeMetadata` (with each type's static module URL) over a list
of types, threading the naming state; used for the flattened `precompile`,
`directives` and `pipes` lists. -/
def mapTypes (env : ResolverEnv) :
    List RVal → AnonState → Except String (List CompileTypeMetadata) × AnonState
  | [], a => (.ok [], a)
  | t :: rest, a =>
    match getTypeMetadata env t (staticTypeModuleUrl t) .vnull a with
    | (.error e, a1) => (.error e, a1)
    | (.ok m, a1) =>
      match mapTypes env rest a1 with
      | (.error e, a2) => (.error e, a2)
      | (.ok ms, a2) => (.ok (m :: ms), a2)

/-- `getQueriesMetadata`: iterate the name-keyed query map in order, keep
the queries whose own view flag matches `isViewQuery`, and resolve each with
its property name. -/
def getQueriesMetadata (isViewQuery : Bool) (directiveType : RVal) :
    List (String × RVal) → AnonState →
    Except String (List CompileQueryMetadata) × AnonState
  | [], a => (.ok [], a)
  | (propertyName, q) :: rest, a =>
    if q.qIsViewQuery == isViewQuery then
      match getQueryMetadata q (some propertyName) directiveType a with
      | (.error e, a1) => (.error e, a1)
      | (.ok qm, a1) =>
        match getQueriesMetadata isViewQuery directiveType rest a1 with
        | (.error e, a2) => (.error e, a2)
        | (.ok qs, a2) => (.ok (qm :: qs), a2)
    else getQueriesMetadata isViewQuery directiveType rest a

/-- Modelled from the spec: `assertArrayOfStrings` from `./assertions` (not
among the analysed sources): a present value must be a homogeneous string
list. -/
def assertArrayOfStrings (identifier : String) (value : RVal) :
    Except String Unit :=
  if isBlank value then .ok ()
  else if value.isArray && value.toList.all (fun v => isString v) then .ok ()
  else
    .error ("Expected " ++ apos ++ identifier ++ apos ++
      " to be an array of strings.")

/-- Modelled from the spec: `assertInterpolationSymbols` from `./assertions`
(not among the analysed sources): a present value must be a two-element
array, the custom interpolation symbol pair. -/
def assertInterpolationSymbols (identifier : String) (value : RVal) :
    Except String Unit :=
  if isPresent value && !(value.isArray && value.toList.length == 2) then
    .error ("Expected " ++ apos ++ identifier ++ apos ++
      " to be an array, [start, end].")
  else .ok ()

/-- Modelled from the spec: `MODULE_SUFFIX` from `./util` (not among the
analysed sources), appended to a scheme-less `moduleId`. -/
def MODULE_SUFFIX : String := ""

/-- `componentModuleUrl`: a static symbol's file path; else a declared
`moduleId`, kept as is when it already carries a URL scheme and otherwise
wrapped in a `package:` address; else the reflector's import URI. -/
def componentModuleUrl (env : ResolverEnv) (type : RVal) (cmpMeta : DirAnn) :
    Option String :=
  match type with
  | .vstatic _ p => some p
  | _ =>
    match cmpMeta.moduleId with
    | some moduleId =>
      let scheme := env.getUrlScheme moduleId
      some (if scheme.length > 0 then moduleId
            else "package:" ++ moduleId ++ MODULE_SUFFIX)
    | none => some (env.importUri type)

/-- Output record `cpl.CompileTemplateMetadata`. -/
structure CompileTemplateMetadata where
  encapsulation : Option Nat
  template : Option String
  templateUrl : Option String
  styles : RVal
  styleUrls : RVal
  animations : Option (List CompileAnimationEntryMetadata)
  interpolation : RVal
deriving DecidableEq, Repr, Inhabited

/-- Output record `cpl.CompileDirectiveMetadata` (the `create` constructor
of `compile_metadata` is not among the analysed sources and is modelled
from the spec as a plain record). -/
structure CompileDirectiveMetadata where
  selector : Option String
  exportAs : Option String
  isComponent : Bool
  type : CompileTypeMetadata
  template : Option CompileTemplateMetadata
  changeDetection : Option Nat
  inputs : List String
  outputs : List String
  host : List (String × String)
  lifecycleHooks : List Nat
  providers : PMetaNode
  viewProviders : PMetaNode
  queries : List CompileQueryMetadata
  viewQueries : List CompileQueryMetadata
  precompile : List CompileTypeMetadata
deriving DecidableEq, Repr, Inhabited

/-- The cache-miss body of `getDirectiveMetadata` (everything between the
failed cache lookup and the `set`): fetch the raw annotation; for a
component additionally resolve the view, validate styles and interpolation,
normalize animations, resolve view providers, compute the module URL and
the precompile types; resolve providers and both query partitions; assemble
the record (its `type` field is resolved last, in object-literal order). -/
def computeDirectiveMetadata (env : ResolverEnv) (directiveType : RVal)
    (a : AnonState) : Except String CompileDirectiveMetadata × AnonState :=
  match env.directiveResolver directiveType with
  | .error e => (.error e, a)
  | .ok dirMeta =>
    match
      ((if dirMeta.isComponent then
          match env.viewResolver directiveType with
          | .error e => (.error e, a)
          | .ok viewMeta =>
            match assertArrayOfStrings "styles" viewMeta.styles with
            | .error e => (.error e, a)
            | .ok _ =>
              match assertInterpolationSymbols "interpolation"
                  viewMeta.interpolation with
              | .error e => (.error e, a)
              | .ok _ =>
                let animations := viewMeta.animations.map
                  (fun es => es.map getAnimationEntryMetadata)
                match assertArrayOfStrings "styles" viewMeta.styles with
                | .error e => (.error e, a)
                | .ok _ =>
                  match assertArrayOfStrings "styleUrls" viewMeta.styleUrls with
                  | .error e => (.error e, a)
                  | .ok _ =>
                    let templateMeta : CompileTemplateMetadata :=
                      { encapsulation := viewMeta.encapsulation,
                        template := viewMeta.template,
                        templateUrl := viewMeta.templateUrl,
                        styles := viewMeta.styles,
                        styleUrls := viewMeta.styleUrls,
                        animations := animations,
                        interpolation := viewMeta.interpolation }
                    match
                      ((if isPresent dirMeta.viewProviders then
                          match verifyNonBlankProviders directiveType
                              dirMeta.viewProviders "viewProviders" with
                          | .error e => (.error e, a)
                          | .ok tree => getProvidersMetadata env tree a
                        else (.ok .pnil, a)) :
                        Except String PMetaNode × AnonState) with
                    | (.error e, a1) => (.error e, a1)
                    | (.ok viewProviders, a1) =>
                      let moduleUrl :=
                        componentModuleUrl env directiveType dirMeta
                      match
                        ((if isPresent dirMeta.precompile then
                            mapTypes env (flattenArr dirMeta.precompile) a1
                          else (.ok [], a1)) :
                          Except String (List CompileTypeMetadata) ×
                            AnonState) with
                      | (.error e, a2) => (.error e, a2)
                      | (.ok precompileTypes, a2) =>
                        (.ok (some templateMeta, dirMeta.changeDetection,
                          viewProviders, moduleUrl, precompileTypes), a2)
        else
          (.ok (none, none, .pnil, staticTypeModuleUrl directiveType, []), a)) :
        Except String (Option CompileTemplateMetadata × Option Nat ×
          PMetaNode × Option String × List CompileTypeMetadata) ×
          AnonState) with
    | (.error e, a1) => (.error e, a1)
    | (.ok (templateMeta, changeDetectionStrategy, viewProviders, moduleUrl,
        precompileTypes), a1) =>
      match
        ((if isPresent dirMeta.providers then
            match verifyNonBlankProviders directiveType dirMeta.providers
                "providers" with
            | .error e => (.error e, a1)
            | .ok tree => getProvidersMetadata env tree a1
          else (.ok .pnil, a1)) : Except String PMetaNode × AnonState) with
      | (.error e, a2) => (.error e, a2)
      | (.ok providers, a2) =>
        match
          ((match dirMeta.queries with
            | some qs =>
              match getQueriesMetadata false directiveType qs a2 with
              | (.error e, a3) => (.error e, a3)
              | (.ok queries, a3) =>
                match getQueriesMetadata true directiveType qs a3 with
                | (.error e, a4) => (.error e, a4)
                | (.ok viewQueries, a4) => (.ok (queries, viewQueries), a4)
            | none => (.ok ([], []), a2)) :
            Except String (List CompileQueryMetadata ×
              List CompileQueryMetadata) × AnonState) with
        | (.error e, a3) => (.error e, a3)
        | (.ok (queries, viewQueries), a3) =>
          match getTypeMetadata env directiveType moduleUrl .vnull a3 with
          | (.error e, a4) => (.error e, a4)
          | (.ok typeMeta, a4) =>
            (.ok { selector := dirMeta.selector, exportAs := dirMeta.exportAs,
                   isComponent := templateMeta.isSome,
                   type := typeMeta, template := templateMeta,
                   changeDetection := changeDetectionStrategy,
                   inputs := dirMeta.inputs, outputs := dirMeta.outputs,
                   host := dirMeta.host,
                   lifecycleHooks := LIFECYCLE_HOOKS_VALUES.filter
                     (fun hook => env.lifecycleHook hook directiveType),
                   providers := providers, viewProviders := viewProviders,
                   queries := queries, viewQueries := viewQueries,
                   precompile := precompileTypes }, a4)

/-- Output record `cpl.CompilePipeMetadata`. -/
structure CompilePipeMetadata where
  type : CompileTypeMetadata
  name : String
  pure : Bool
  lifecycleHooks : List Nat
deriving DecidableEq, Repr, Inhabited

/-- Output record `cpl.CompileAppModuleMetadata`.  The `providers` list
holds the spread elements of `getProvidersMetadata` results, so an element
may itself be a nested chain. -/
structure CompileAppModuleMetadata where
  type : CompileTypeMetadata
  providers : List PMetaNode
  directives : List CompileTypeMetadata
  pipes : List CompileTypeMetadata
  precompile : List CompileTypeMetadata
  modules : List CompileTypeMetadata
deriving DecidableEq, Repr, Inhabited

/-- The mutable state of `CompileMetadataResolver`: the three metadata
caches plus the anonymous-naming state (`_anonymousTypes`,
`_anonymousTypeIndex`). -/
structure ResolverState where
  directiveCache : List (RVal × CompileDirectiveMetadata)
  pipeCache : List (RVal × CompilePipeMetadata)
  appModuleCache : List (RVal × CompileAppModuleMetadata)
  anon : AnonState
deriving DecidableEq, Repr, Inhabited

/-- The state of a freshly constructed resolver: all caches empty, the
anonymous counter at zero. -/
def initialResolverState : ResolverState :=
  { directiveCache := [], pipeCache := [], appModuleCache := [],
    anon := { anonymousTypes := [], anonymousTypeIndex := 0 } }

/-- `clearCacheFor`: delete one type's entries from the three caches (the
anonymous-naming state is untouched). -/
def clearCacheFor (type : RVal) (s : ResolverState) : ResolverState :=
  { s with directiveCache := delEntry s.directiveCache type,
           pipeCache := delEntry s.pipeCache type,
           appModuleCache := delEntry s.appModuleCache type }

/-- `clearCache`: clear the three caches (the anonymous-naming state is
untouched). -/
def clearCache (s : ResolverState) : ResolverState :=
  { s with directiveCache := [], pipeCache := [], appModuleCache := [] }

/-- `getDirectiveMetadata`: dereference the forward reference, consult the
directive cache; on a miss compute the metadata, store it under the
dereferenced type and return it. -/
def getDirectiveMetadata (env : ResolverEnv) (directiveType : RVal)
    (s : ResolverState) : Except String CompileDirectiveMetadata ×
    ResolverState :=
  let dt := resolveForwardRef directiveType
  match findEntry s.directiveCache dt with
  | some meta => (.ok meta, s)
  | none =>
    match computeDirectiveMetadata env dt s.anon with
    | (.error e, a1) => (.error e, { s with anon := a1 })
    | (.ok meta, a1) =>
      (.ok meta, { s with anon := a1,
                          directiveCache := setEntry s.directiveCache dt meta })

/-- `maybeGetDirectiveMetadata`: run `getDirectiveMetadata`; an error whose
message contains "No Directive annotation" becomes a null result, any other
error is re-raised. -/
def maybeGetDirectiveMetadata (env : ResolverEnv) (someType : RVal)
    (s : ResolverState) : Except String (Option CompileDirectiveMetadata) ×
    ResolverState :=
  match getDirectiveMetadata env someType s with
  | (.ok meta, s1) => (.ok (some meta), s1)
  | (.error e, s1) =>
    if strContains e "No Directive annotation" then (.ok none, s1)
    else (.error e, s1)

/-- `getPipeMetadata`: dereference the forward reference, consult the pipe
cache; on a miss fetch the raw pipe annotation, assemble and cache the pipe
record. -/
def getPipeMetadata (env : ResolverEnv) (pipeType : RVal)
    (s : ResolverState) : Except String CompilePipeMetadata × ResolverState :=
  let pt := resolveForwardRef pipeType
  match findEntry s.pipeCache pt with
  | some meta => (.ok meta, s)
  | none =>
    match env.pipeResolver pt with
    | .error e => (.error e, s)
    | .ok pipeMeta =>
      match getTypeMetadata env pt (staticTypeModuleUrl pt) .vnull s.anon with
      | (.error e, a1) => (.error e, { s with anon := a1 })
      | (.ok typeMeta, a1) =>
        let meta : CompilePipeMetadata :=
          { type := typeMeta, name := pipeMeta.name, pure := pipeMeta.pure,
            lifecycleHooks := LIFECYCLE_HOOKS_VALUES.filter
              (fun hook => env.lifecycleHook hook pt) }
        (.ok meta, { s with anon := a1,
                            pipeCache := setEntry s.pipeCache pt meta })

/-- The accumulator of `getAppModuleMetadata`: the five flattened lists the
source mutates in place. -/
structure ModuleAcc where
  providers : List PMetaNode
  directives : List CompileTypeMetadata
  pipes : List CompileTypeMetadata
  precompile : List CompileTypeMetadata
  modules : List CompileTypeMetadata
deriving DecidableEq, Repr, Inhabited

/-- The `forEach` loop over a module's flattened nested-module list:
resolve each nested module and splice its providers, directives, pipes and
precompile into the accumulator, and its own type followed by its nested
module types into the module list. -/
def appModuleFold
    (resolve : RVal → ResolverState →
      Except String CompileAppModuleMetadata × ResolverState) :
    List RVal → ModuleAcc → ResolverState →
    Except String ModuleAcc × ResolverState
  | [], acc, s => (.ok acc, s)
  | mt :: rest, acc, s =>
    match resolve mt s with
    | (.error e, s1) => (.error e, s1)
    | (.ok meta, s1) =>
      appModuleFold resolve rest
        { providers := acc.providers ++ meta.providers,
          directives := acc.directives ++ meta.directives,
          pipes := acc.pipes ++ meta.pipes,
          precompile := acc.precompile ++ meta.precompile,
          modules := acc.modules ++ (meta.type :: meta.modules) } s1

/-- `getAppModuleMetadata`: caching is used only when no raw annotation is
supplied (`useCache`); on the compute path the annotation is the supplied
one or the reflector's `AppModuleMetadata` (no such annotation is an
error); top-level providers, directives, pipes and precompile are resolved,
then every flattened nested module reference is resolved recursively and
spliced in; the record (its own `type` resolved at construction) is cached
only under `useCache`.  The `Nat` argument is recursion fuel, a device of
the embedding: the source would not terminate on a cyclic module graph. -/
def getAppModuleMetadata (env : ResolverEnv) :
    Nat → RVal → Option ModuleAnn → ResolverState →
    Except String CompileAppModuleMetadata × ResolverState
  | 0, _, _, s => (.error "app module recursion limit reached", s)
  | fuel + 1, moduleTypeArg, metaArg, s =>
    let useCache := metaArg.isNone
    let moduleType := resolveForwardRef moduleTypeArg
    match findEntry s.appModuleCache moduleType, useCache with
    | some compileMeta, true => (.ok compileMeta, s)
    | _, _ =>
      let metaFound : Option ModuleAnn :=
        match metaArg with
        | some m => some m
        | none =>
          (env.annotations moduleType).findSome?
            (fun an => match an with
              | .appModule m => some m
              | _ => none)
      match metaFound with
      | none =>
        (.error ("Could not compile " ++ apos ++ stringify moduleType ++
          apos ++ " because it is not an AppModule."), s)
      | some m =>
        match
          ((if isPresent m.providers then
              getProvidersMetadata env m.providers s.anon
            else (.ok .pnil, s.anon)) :
            Except String PMetaNode × AnonState) with
        | (.error e, a1) => (.error e, { s with anon := a1 })
        | (.ok provChain, a1) =>
          match
            ((if isPresent m.directives then
                mapTypes env (flattenArr m.directives) a1
              else (.ok [], a1)) :
              Except String (List CompileTypeMetadata) × AnonState) with
          | (.error e, a2) => (.error e, { s with anon := a2 })
          | (.ok directives, a2) =>
            match
              ((if isPresent m.pipes then
                  mapTypes env (flattenArr m.pipes) a2
                else (.ok [], a2)) :
                Except String (List CompileTypeMetadata) × AnonState) with
            | (.error e, a3) => (.error e, { s with anon := a3 })
            | (.ok pipes, a3) =>
              match
                ((if isPresent m.precompile then
                    mapTypes env (flattenArr m.precompile) a3
                  else (.ok [], a3)) :
                  Except String (List CompileTypeMetadata) × AnonState) with
              | (.error e, a4) => (.error e, { s with anon := a4 })
              | (.ok precompile, a4) =>
                let acc0 : ModuleAcc :=
                  { providers := provChain.toList, directives := directives,
                    pipes := pipes, precompile := precompile, modules := [] }
                match
                  ((if isPresent m.modules then
                      appModuleFold
                        (fun mt s0 => getAppModuleMetadata env fuel mt none s0)
                        (flattenArr m.modules) acc0 { s with anon := a4 }
                    else (.ok acc0, { s with anon := a4 })) :
                    Except String ModuleAcc × ResolverState) with
                | (.error e, s5) => (.error e, s5)
                | (.ok acc, s5) =>
                  match getTypeMetadata env moduleType
                      (staticTypeModuleUrl moduleType) .vnull s5.anon with
                  | (.error e, a6) => (.error e, { s5 with anon := a6 })
                  | (.ok typeMeta, a6) =>
                    let compileMeta : CompileAppModuleMetadata :=
                      { type := typeMeta, providers := acc.providers,
                        directives := acc.directives, pipes := acc.pipes,
                        precompile := acc.precompile, modules := acc.modules }
                    let s6 := { s5 with anon := a6 }
                    if useCache then
                      (.ok compileMeta,
                       { s6 with appModuleCache :=
                           setEntry s6.appModuleCache moduleType compileMeta })
                    else (.ok compileMeta, s6)

/-- Following the specification's words (for comparison with
`getProvidersMetadata`): resolve a provider list by classifying each entry
of its pre-order flattening, producing one flat list. -/
def specFlatProviders (env : ResolverEnv) :
    List RVal → AnonState → Except String (List PMetaNode) × AnonState
  | [], a => (.ok [], a)
  | p :: rest, a =>
    match providerEntry env p a with
    | (.error e, a1) => (.error e, a1)
    | (.ok x, a1) =>
      match specFlatProviders env rest a1 with
      | (.error e, a2) => (.error e, a2)
      | (.ok xs, a2) => (.ok (x :: xs), a2)

/-- Pre-order leaf sequence of a `getProvidersMetadata` result: nested
chains are flattened away, leaves kept in order. -/
def flattenPM : PMetaNode → List PMetaNode
  | .pcons h t => flattenPM h ++ flattenPM t
  | .pnil => []
  | .prov p => [.prov p]
  | .typ t => [.typ t]

/-- Is the result a flat list, i.e. a chain all of whose elements are
leaves (no nested chains)? -/
def PMetaNode.isFlatList : PMetaNode → Bool
  | .pnil => true
  | .pcons (.pcons ..) _ => false
  | .pcons .pnil _ => false
  | .pcons _ t => t.isFlatList
  | _ => false

/-- Following the specification's words (for comparison with
`dependencyOf`): the token the qualifier scan determines for one raw
parameter — the fold of the scan over a qualifier list, or the parameter
itself when it is a plain value. -/
def paramToken (param : RVal) : RVal :=
  if param.isArray then (param.toList.foldl scanDiEntry scanInit).token
  else param

/-- Well-formedness of the anonymous-naming state: distinct indices across
entries, all below the counter.  It holds for the initial state and is
preserved by `sanitizeTokenName`. -/
def AnonWF (a : AnonState) : Prop :=
  a.anonymousTypes.Pairwise (fun e1 e2 => e1.2 ≠ e2.2) ∧
  ∀ e ∈ a.anonymousTypes, e.2 < a.anonymousTypeIndex

/-- Decidable equality of `Except` results, for concrete evaluation. -/
instance {e a : Type} [DecidableEq e] [DecidableEq a] : DecidableEq (Except e a) := fun x y =>
  match x, y with
  | .ok v, .ok w => if h : v = w then isTrue (by rw [h]) else isFalse (by simp [h])
  | .error u, .error w => if h : u = w then isTrue (by rw [h]) else isFalse (by simp [h])
  | .ok _, .error _ => isFalse (by simp)
  | .error _, .ok _ => isFalse (by simp)

/-- The empty anonymous-naming state. -/
def anonInit : AnonState := { anonymousTypes := [], anonymousTypeIndex := 0 }

/-- A collaborator environment in which every lookup comes back empty and
every resolver fails; concrete scenarios override single fields. -/
def defaultEnv : ResolverEnv :=
  { annotations := fun _ => [],
    parameters := fun _ => .vnull,
    importUri := fun _ => "",
    directiveResolver := fun t =>
      .error ("No Directive annotation found on " ++ stringify t),
    pipeResolver := fun _ => .error "No Pipe decorator found",
    viewResolver := fun _ => .error "No View decorator found",
    lifecycleHook := fun _ _ => false,
    getUrlScheme := fun _ => "" }

/-- C1 scenario input: a provider list `[[MyService]]` with one nested
sub-list around a bare type. -/
def c1Input : RVal := .vcons (.vcons (.vtype 7 "MyService") .vnil) .vnil

/-- The C1 scenario run of `getProvidersMetadata`. -/
def c1Run : Except String PMetaNode × AnonState :=
  getProvidersMetadata defaultEnv c1Input anonInit

/-- The C1 scenario output (the run succeeds). -/
def c1Out : PMetaNode :=
  match c1Run.1 with
  | .ok out => out
  | .error _ => .pnil

/-- The C1 scenario run of the specification-words flat resolution. -/
def c1SpecRun : Except String (List PMetaNode) × AnonState :=
  specFlatProviders defaultEnv (flattenArr c1Input) anonInit

/-- The C1 scenario output of the specification-words flat resolution. -/
def c1SpecOut : List PMetaNode :=
  match c1SpecRun.1 with
  | .ok out => out
  | .error _ => []

/-- C2 scenario: a directive type. -/
def c2Type : RVal := .vtype 3 "MyDir"

/-- C2 scenario: a content query qualifier (with a selector, no token). -/
def c2Query : RVal := .vquery 0 false false .vnil (.vstr "sel") false true .vnull

/-- C2 scenario: one parameter whose qualifier list is just the query. -/
def c2Params : RVal := .vcons (.vcons c2Query .vnil) .vnil

/-- C3 scenario: a directive type with three parameters. -/
def c3Type : RVal := .vtype 4 "MyDir3"

/-- C3 scenario: parameter 2 of 3 is blank and carries no token. -/
def c3Params : List RVal := [.vtype 1 "Dep1", .vnull, .vtype 2 "Dep3"]

/-- The C3 scenario parameter map run. -/
def c3Run : Except String (List (Option CompileDiDependencyMetadata)) ×
    AnonState :=
  dependenciesOf c3Type c3Params anonInit

/-- The C3 scenario per-parameter entries. -/
def c3Ds : List (Option CompileDiDependencyMetadata) :=
  match c3Run.1 with
  | .ok ds => ds
  | .error _ => []

/-- C4 scenario environment: module `A` (type id `na`) nests `B` (`nb`)
nests `C` (`nc`), each declaring one provider (a bare type) and one
directive (a static symbol). -/
def chainEnv (na nb nc pa pb pc : Nat) : ResolverEnv :=
  { defaultEnv with annotations := fun t =>
      (if t = RVal.vtype na "A" then
        [.appModule { providers := .vcons (.vtype pa "PA") .vnil,
                      directives := .vcons (.vstatic "DA" "/da.ts") .vnil,
                      pipes := .vnull,
                      precompile := .vnull,
                      modules := .vcons (.vtype nb "B") .vnil }]
      else if t = RVal.vtype nb "B" then
        [.appModule { providers := .vcons (.vtype pb "PB") .vnil,
                      directives := .vcons (.vstatic "DB" "/db.ts") .vnil,
                      pipes := .vnull,
                      precompile := .vnull,
                      modules := .vcons (.vtype nc "C") .vnil }]
      else if t = RVal.vtype nc "C" then
        [.appModule { providers := .vcons (.vtype pc "PC") .vnil,
                      directives := .vcons (.vstatic "DC" "/dc.ts") .vnil,
                      pipes := .vnull,
                      precompile := .vnull, modules := .vnull }]
      else []) }

/-- C4 scenario environment for repeated inclusion: like `chainEnv` but `A`
nests `[B, B]`. -/
def dupEnv (na nb nc pa pb pc : Nat) : ResolverEnv :=
  { chainEnv na nb nc pa pb pc with annotations := fun t =>
      (if t = RVal.vtype na "A" then
        [.appModule { providers := .vcons (.vtype pa "PA") .vnil,
                      directives := .vcons (.vstatic "DA" "/da.ts") .vnil,
                      pipes := .vnull,
                      precompile := .vnull,
                      modules := .vcons (.vtype nb "B")
                        (.vcons (.vtype nb "B") .vnil) }]
      else (chainEnv na nb nc pa pb pc).annotations t) }

/-- The provider-free, query-free directive annotation of the C5
scenario. -/
def dirAnn5 : DirAnn :=
  { isComponent := false, selector := some "d5", exportAs := none,
    inputs := [], outputs := [], host := [], providers := .vnull,
    queries := none, changeDetection := none, viewProviders := .vnull,
    moduleId := none, precompile := .vnull }

/-- C5 scenario: the directive type. -/
def c5Type : RVal := .vtype 10 "Dir5"

/-- C5 scenario environment: the directive resolver knows `Dir5`. -/
def env5 : ResolverEnv :=
  { defaultEnv with directiveResolver := fun t =>
      (if t = c5Type then .ok dirAnn5
       else .error ("No Directive annotation found on " ++ stringify t)) }

/-- The first C5 resolution, from the fresh resolver state. -/
def c5Run : Except String CompileDirectiveMetadata × ResolverState :=
  getDirectiveMetadata env5 c5Type initialResolverState

/-- The C5 metadata instance (the run succeeds). -/
def c5Meta : CompileDirectiveMetadata :=
  match c5Run.1 with
  | .ok m => m
  | .error _ => default

/-- The resolver state after the first C5 resolution. -/
def c5S1 : ResolverState := c5Run.2

/-- C6 scenario: two distinct anonymous entities (closures) with the same
source text, hence equal `stringify` but different identities. -/
def c6u : RVal := .vother 0 "function ()"

/-- The second anonymous entity of the C6 scenario. -/
def c6v : RVal := .vother 1 "function ()"

/-- C7 scenario: the evicted type. -/
def c7tA : RVal := .vtype 40 "TA"

/-- C7 scenario: the untouched other type. -/
def c7tB : RVal := .vtype 41 "TB"

/-- C7 scenario state: both types cached as directives, `TA` also cached as
a pipe and a module. -/
def c7s : ResolverState :=
  { directiveCache := [(c7tA, default), (c7tB, default)],
    pipeCache := [(c7tA, default)],
    appModuleCache := [(c7tA, default)],
    anon := anonInit }

/-- C8 scenario: the nested module type. -/
def c8B : RVal := .vtype 21 "B8"

/-- C8 scenario: the module type whose raw annotation is supplied. -/
def c8A : RVal := .vtype 20 "A8"

/-- C8 scenario: an annotation with no nested modules. -/
def c8AnnB : ModuleAnn :=
  { providers := .vnull, directives := .vnull, pipes := .vnull,
    precompile := .vnull, modules := .vnull }

/-- C8 scenario: the supplied raw annotation of `A8`, nesting `B8`. -/
def c8AnnA : ModuleAnn := { c8AnnB with modules := .vcons c8B .vnil }

/-- C8 scenario environment: only `B8` has a reflective module
annotation. -/
def env8 : ResolverEnv :=
  { defaultEnv with annotations := fun t =>
      (if t = c8B then [.appModule c8AnnB] else []) }

/-- The C8 scenario run: resolve `A8` with its raw annotation supplied
directly, from the fresh resolver state. -/
def c8Run : Except String CompileAppModuleMetadata × ResolverState :=
  getAppModuleMetadata env8 5 c8A (some c8AnnA) initialResolverState

/-- C8 scenario: a state whose module cache holds a junk entry for `A8`. -/
def c8sJunk : ResolverState :=
  { initialResolverState with appModuleCache := [(c8A, default)] }

/-- C9 scenario: the directive type. -/
def c9Type : RVal := .vtype 30 "D9"

/-- C9 scenario: a directive annotation whose provider list holds the plain
string "No Directive annotation" (an invalid provider whose stringified
form contains the watched substring). -/
def dirAnn9 : DirAnn :=
  { dirAnn5 with providers := .vcons (.vstr "No Directive annotation") .vnil }

/-- C9 scenario environment: the directive resolver knows `D9`. -/
def env9 : ResolverEnv :=
  { defaultEnv with directiveResolver := fun t =>
      (if t = c9Type then .ok dirAnn9
       else .error ("No Directive annotation found on " ++ stringify t)) }

/-- C9 scenario environment whose directive resolver fails with an
unrelated message. -/
def envBoom : ResolverEnv :=
  { defaultEnv with directiveResolver := fun _ => (.error "boom") }

/-- Does an animation node match one of the variants `getAnimationMetadata`
recognizes (style, keyframes sequence, animate, group, sequence)? -/
def AnimNode.isAnimShape : AnimNode → Bool
  | .style .. | .keyframes .. | .animate .. | .group .. | .sequence .. => true
  | _ => false

/-- Does an animation node match one of the variants
`getAnimationStateMetadata` recognizes (state declaration, state
transition)? -/
def AnimNode.isStateShape : AnimNode → Bool
  | .stateDeclaration .. | .stateTransition .. => true
  | _ => false

theorem strExt (a b : String) (h : a.data = b.data) : a = b := by
  cases a; cases b; cases h; rfl

theorem strAppendData (a b : String) : (a ++ b).data = a.data ++ b.data := rfl

theorem toList_ofList (l : List RVal) : (RVal.ofList l).toList = l := by
  induction l with
  | nil => rfl
  | cons v rest ih => simp [RVal.ofList, RVal.toList, ih]

theorem isBlank_ofList (l : List RVal) : isBlank (RVal.ofList l) = false := by
  cases l <;> rfl

theorem dependencyOf_fst_ok_none_iff (t param : RVal) (a : AnonState) :
    (dependencyOf t param a).1 = Except.ok none ↔
    isBlank (paramToken param) = true := by
  have hacc : (if param.isArray then param.toList.foldl scanDiEntry scanInit
      else { scanInit with token := param }).token = paramToken param := by
    by_cases h : param.isArray <;> simp [paramToken, h]
  simp only [dependencyOf]
  rw [hacc]
  by_cases hb : isBlank (paramToken param) = true
  · simp [hb]
  · simp only [hb, Bool.false_eq_true, if_neg, reduceIte]
    constructor
    · intro h
      exfalso
      revert h
      split <;> (try split) <;> simp
    · intro h
      exact h.elim

/-- C2: corrected.  A parameter is marked unresolved exactly when the
qualifier scan determined no token, regardless of whether it yielded a
query or view query; in particular a parameter whose qualifier list is a
single query qualifier (no token) is unresolved and makes the whole call
fail with the placeholder message. -/
theorem dependency_unresolved_iff_no_token :
    (∀ t param a, (dependencyOf t param a).1 = Except.ok none ↔
      isBlank (paramToken param) = true) ∧
    (∀ env t a qid ivq ivb vb sel f d rd,
      getDependenciesMetadata env t
        (.vcons (.vcons (.vquery qid ivq ivb vb sel f d rd) .vnil) .vnil) a =
      (.error ("Can" ++ apos ++ "t resolve all parameters for " ++
        stringify t ++ ": (?)."), a)) := by
  refine ⟨dependencyOf_fst_ok_none_iff, ?_⟩
  intro env t a qid ivq ivb vb sel f d rd
  have hi : String.intercalate ", " ["?"] = "?" := rfl
  cases ivq <;>
    simp [getDependenciesMetadata, dependenciesOf, dependencyOf, scanDiEntry,
      isPresent, isBlank, RVal.toList, RVal.isArray, scanInit,
      RVal.qIsViewQuery, hi] <;>
  · apply strExt
    simp only [strAppendData, List.append_assoc]
    congr 1

/-- C2 counterexample: at the concrete input `MyDir` with one parameter
whose qualifier list is a single content query, the scan yields that query,
yet the call fails (the claim says it must not). -/
theorem dependencies_query_param_cex :
    getDependenciesMetadata defaultEnv c2Type c2Params anonInit =
      (.error ("Can" ++ apos ++ "t resolve all parameters for MyDir: (?)."),
       anonInit) ∧
    ((RVal.vcons c2Query RVal.vnil).toList.foldl scanDiEntry scanInit).query
      = c2Query := by decide

/-- C10: confirmed.  Animation metadata resolution is lenient: a node whose
shape matches none of the variants enumerated for `getAnimationMetadata`
(style, keyframes sequence, animate, group, sequence) yields `null`, and a
node matching neither state variant (declaration, transition) yields `null`
from `getAnimationStateMetadata`; neither function can fail. -/
theorem animation_unrecognized_yields_null :
    (∀ v : AnimNode, v.isAnimShape = false →
      getAnimationMetadata v = .cnull) ∧
    (∀ v : AnimNode, v.isStateShape = false →
      getAnimationStateMetadata v = .snull) := by
  constructor <;> intro v h <;> cases v <;>
    simp_all [AnimNode.isAnimShape, AnimNode.isStateShape,
      getAnimationMetadata, getAnimationStateMetadata]

/-- Witness for C10 at the concrete unrecognized node `aother 0`. -/
theorem animation_unrecognized_yields_null_witness :
    getAnimationMetadata (.aother 0) = .cnull ∧
    getAnimationStateMetadata (.aother 0) = .snull :=
  ⟨animation_unrecognized_yields_null.1 (.aother 0) rfl,
   animation_unrecognized_yields_null.2 (.aother 0) rfl⟩

theorem dependenciesOf_length (t : RVal) :
    ∀ params a ds a1, dependenciesOf t params a = (.ok ds, a1) →
    ds.length = params.length := by
  intro params
  induction params with
  | nil =>
    intro a ds a1 h
    simp only [dependenciesOf] at h
    obtain ⟨h1, _⟩ := Prod.mk.injEq .. ▸ h
    simp_all
  | cons p rest ih =>
    intro a ds a1 h
    simp only [dependenciesOf] at h
    rcases hd : dependencyOf t p a with ⟨r, a2⟩
    rw [hd] at h
    cases r with
    | error e => simp_all
    | ok dOpt =>
      dsimp only at h
      rcases hrest : dependenciesOf t rest a2 with ⟨r2, a3⟩
      rw [hrest] at h
      cases r2 with
      | error e => simp_all
      | ok ds2 =>
        simp only [Prod.mk.injEq, Except.ok.injEq] at h
        obtain ⟨h1, _⟩ := h
        subst h1
        simp [ih a2 ds2 a3 (by rw [hrest])]

theorem dependenciesOf_isNone_map (t : RVal) :
    ∀ params a ds a1, dependenciesOf t params a = (.ok ds, a1) →
    ds.map Option.isNone = params.map (fun p => isBlank (paramToken p)) := by
  intro params
  induction params with
  | nil =>
    intro a ds a1 h
    simp only [dependenciesOf] at h
    simp_all
  | cons p rest ih =>
    intro a ds a1 h
    simp only [dependenciesOf] at h
    rcases hd : dependencyOf t p a with ⟨r, a2⟩
    rw [hd] at h
    cases r with
    | error e => simp_all
    | ok dOpt =>
      dsimp only at h
      rcases hrest : dependenciesOf t rest a2 with ⟨r2, a3⟩
      rw [hrest] at h
      cases r2 with
      | error e => simp_all
      | ok ds2 =>
        simp only [Prod.mk.injEq, Except.ok.injEq] at h
        obtain ⟨h1, _⟩ := h
        subst h1
        have hiff := dependencyOf_fst_ok_none_iff t p a
        rw [hd] at hiff
        have hhead : dOpt.isNone = isBlank (paramToken p) := by
          cases dOpt <;> simp_all
        simp [hhead, ih a2 ds2 a3 (by rw [hrest])]

/-- C3: confirmed.  `getDependenciesMetadata` is all-or-nothing: when any
parameter of the list is unresolved the whole call throws, the message
lists one entry per parameter (the resolved token's text, or `?` exactly at
the unresolved positions), and no dependency list is returned (the result
is the error, never `ok`). -/
theorem getDependenciesMetadata_all_or_nothing
    (env : ResolverEnv) (t : RVal) (params : List RVal) (a : AnonState)
    (ds : List (Option CompileDiDependencyMetadata)) (a1 : AnonState)
    (hds : dependenciesOf t params a = (.ok ds, a1))
    (hun : ds.any (fun d => d.isNone) = true) :
    getDependenciesMetadata env t (RVal.ofList params) a =
      (.error ("Can" ++ apos ++ "t resolve all parameters for " ++
        stringify t ++ ": (" ++ String.intercalate ", "
          (ds.map (fun d => match d with
            | some dep => dep.token.strName
            | none => "?")) ++ ")."), a1) ∧
    ds.length = params.length ∧
    ds.map Option.isNone = params.map (fun p => isBlank (paramToken p)) := by
  refine ⟨?_, dependenciesOf_length t params a ds a1 hds,
    dependenciesOf_isNone_map t params a ds a1 hds⟩
  simp only [getDependenciesMetadata, isPresent, isBlank_ofList,
    Bool.not_false, Bool.false_eq_true, if_false, reduceIte, toList_ofList]
  rw [hds]
  simp [hun]

/-- Witness for C3 at the concrete scenario (parameter 2 of 3 blank): the
whole call fails listing `Dep1, ?, Dep3`, no partial two-element list is
returned. -/
theorem getDependenciesMetadata_all_or_nothing_witness :
    getDependenciesMetadata defaultEnv c3Type (RVal.ofList c3Params) anonInit
      = (.error ("Can" ++ apos ++
          "t resolve all parameters for MyDir3: (Dep1, ?, Dep3)."),
         anonInit) ∧
    c3Ds.length = c3Params.length ∧
    c3Ds.map Option.isNone = c3Params.map (fun p => isBlank (paramToken p)) := by
  have h := getDependenciesMetadata_all_or_nothing defaultEnv c3Type c3Params
    anonInit c3Ds anonInit (by decide) (by decide)
  refine ⟨?_, h.2.1, h.2.2⟩
  rw [h.1]
  decide

theorem specFlatProviders_append (env : ResolverEnv) :
    ∀ l1 l2 a, specFlatProviders env (l1 ++ l2) a =
      (match specFlatProviders env l1 a with
       | (.error e, a1) => (.error e, a1)
       | (.ok xs, a1) =>
         match specFlatProviders env l2 a1 with
         | (.error e, a2) => (.error e, a2)
         | (.ok ys, a2) => (.ok (xs ++ ys), a2)) := by
  intro l1
  induction l1 with
  | nil =>
    intro l2 a
    simp only [List.nil_append, specFlatProviders]
    rcases h : specFlatProviders env l2 a with ⟨r, a2⟩
    cases r <;> simp
  | cons p rest ih =>
    intro l2 a
    simp only [List.cons_append, specFlatProviders]
    rcases hp : providerEntry env p a with ⟨r, a1⟩
    cases r with
    | error e => rfl
    | ok x =>
      dsimp only
      simp only [List.append_eq]
      rw [ih]
      rcases h1 : specFlatProviders env rest a1 with ⟨r1, a2⟩
      cases r1 with
      | error e => rfl
      | ok xs =>
        dsimp only
        rcases h2 : specFlatProviders env l2 a2 with ⟨r2, a3⟩
        cases r2 <;> simp

theorem providerEntry_ok_flatten (env : ResolverEnv) (v : RVal) (a : AnonState)
    (x : PMetaNode) (a1 : AnonState)
    (h : providerEntry env v a = (.ok x, a1)) : flattenPM x = [x] := by
  unfold providerEntry at h
  (repeat' split at h) <;>
    first
      | (simp only [Prod.mk.injEq, Except.ok.injEq] at h
         obtain ⟨h1, h2⟩ := h
         subst h1
         rfl)
      | simp_all [flattenPM]

theorem flattenArr_eq_nil (t : RVal)
    (h : ∀ x y, t = RVal.vcons x y → False) : flattenArr t = [] := by
  cases t <;> first | rfl | exact (h _ _ rfl).elim

theorem getProvidersMetadata_eq_nil (env : ResolverEnv) (t : RVal)
    (a : AnonState) (h : ∀ x y, t = RVal.vcons x y → False) :
    getProvidersMetadata env t a = (.ok .pnil, a) := by
  cases t <;> first | rfl | exact (h _ _ rfl).elim

/-- C1 amended: `getProvidersMetadata` keeps the input's nesting (each
nested sub-list maps to a nested chain), and reading the output's leaves
left-to-right equals resolving the pre-order flattening of the input flatly,
with the same final naming state. -/
theorem getProvidersMetadata_flatten_eq_spec (env : ResolverEnv) :
    ∀ ps a out a1, getProvidersMetadata env ps a = (.ok out, a1) →
      specFlatProviders env (flattenArr ps) a = (.ok (flattenPM out), a1) := by
  intro ps a
  induction ps, a using getProvidersMetadata.induct env with
  | case1 u t a e a2 hstep ihu =>
    intro out a1 h
    simp only [getProvidersMetadata, hstep] at h
    simp at h
  | case2 u t a x a2 hstep e a2x hrest ihu iht =>
    intro out a1 h
    simp only [getProvidersMetadata, hstep, hrest] at h
    simp at h
  | case3 u t a x a2 hstep xs a2x hrest ihu iht =>
    intro out a1 h
    simp only [getProvidersMetadata, hstep, hrest, Prod.mk.injEq,
      Except.ok.injEq] at h
    obtain ⟨hout, ha1⟩ := h
    subst hout
    subst ha1
    simp only [flattenArr]
    rw [specFlatProviders_append]
    by_cases harr : u.isArray = true
    · rw [if_pos harr]
      rw [if_pos harr] at hstep
      rw [ihu x a2 hstep]
      dsimp only
      rw [iht xs a2x hrest]
      dsimp only
      simp [flattenPM]
    · rw [if_neg harr]
      rw [if_neg harr] at hstep
      have hflat := providerEntry_ok_flatten env u a x a2 hstep
      have hone : specFlatProviders env [u] a = (.ok [x], a2) := by
        simp [specFlatProviders, hstep]
      rw [hone]
      dsimp only
      rw [iht xs a2x hrest]
      dsimp only
      simp [flattenPM, hflat]
  | case4 h0 t a hnf e a2 hstep ihu =>
    intro out a1 h
    simp only [getProvidersMetadata, hstep] at h
    simp at h
  | case5 h0 t a hnf x a2 hstep e a2x hrest ihu iht =>
    intro out a1 h
    simp only [getProvidersMetadata, hstep, hrest] at h
    simp at h
  | case6 h0 t a hnf x a2 hstep xs a2x hrest ihu iht =>
    intro out a1 h
    simp only [getProvidersMetadata, hstep, hrest, Prod.mk.injEq,
      Except.ok.injEq] at h
    obtain ⟨hout, ha1⟩ := h
    subst hout
    subst ha1
    simp only [flattenArr]
    rw [specFlatProviders_append]
    by_cases harr : h0.isArray = true
    · rw [if_pos harr]
      rw [if_pos harr] at hstep
      rw [ihu x a2 hstep]
      dsimp only
      rw [iht xs a2x hrest]
      dsimp only
      simp [flattenPM]
    · rw [if_neg harr]
      rw [if_neg harr] at hstep
      have hflat := providerEntry_ok_flatten env h0 a x a2 hstep
      have hone : specFlatProviders env [h0] a = (.ok [x], a2) := by
        simp [specFlatProviders, hstep]
      rw [hone]
      dsimp only
      rw [iht xs a2x hrest]
      dsimp only
      simp [flattenPM, hflat]
  | case7 t a hnf1 hnf2 =>
    intro out a1 h
    rw [getProvidersMetadata_eq_nil env t a
      (fun x y hxy => hnf2 x y hxy)] at h
    simp only [Prod.mk.injEq, Except.ok.injEq] at h
    obtain ⟨hout, ha1⟩ := h
    subst hout
    subst ha1
    rw [flattenArr_eq_nil t (fun x y hxy => hnf2 x y hxy)]
    rfl

/-- C1 counterexample: at the concrete input `[[MyService]]` the run
succeeds but its output is not a flat list — the nested sub-list comes back
as a nested list element, and the element sequence differs from the
pre-order flat resolution the claim promises. -/
theorem getProvidersMetadata_not_flat_cex :
    c1Run.1 = .ok c1Out ∧
    c1SpecRun.1 = .ok c1SpecOut ∧
    c1Out.isFlatList = false ∧
    c1Out.toList ≠ c1SpecOut := by decide

/-- Witness for the amended C1 at the concrete input `[[MyService]]`. -/
theorem getProvidersMetadata_flatten_eq_spec_witness :
    specFlatProviders defaultEnv (flattenArr c1Input) anonInit =
      (.ok (flattenPM c1Out), c1Run.2) :=
  getProvidersMetadata_flatten_eq_spec defaultEnv c1Input anonInit c1Out
    c1Run.2 (by decide)

theorem findEntry_setEntry_self {α : Type} (l : List (RVal × α)) (k : RVal)
    (v : α) : findEntry (setEntry l k v) k = some v := by
  induction l with
  | nil => simp [setEntry, findEntry]
  | cons e rest ih =>
    rcases e with ⟨k1, v1⟩
    by_cases hk : k1 = k
    · simp [setEntry, findEntry, hk]
    · simp [setEntry, findEntry, hk, ih]

theorem findEntry_setEntry_ne {α : Type} (l : List (RVal × α)) (k u : RVal)
    (v : α) (h : u ≠ k) : findEntry (setEntry l k v) u = findEntry l u := by
  have h2 : ¬ k = u := fun hh => h hh.symm
  induction l with
  | nil => simp [setEntry, findEntry, h2]
  | cons e rest ih =>
    rcases e with ⟨k1, v1⟩
    by_cases hk : k1 = k
    · subst hk
      simp [setEntry, findEntry, h2]
    · simp [setEntry, findEntry, hk, ih]

/-- C5: confirmed.  A successful directive resolution is cached under the
forward-reference-dereferenced type: resolving the same type again returns
the very entry stored by the first call and leaves the whole resolver state
untouched (so nothing is recomputed and no fresh allocation happens), and
the same cached entry is returned when the type arrives wrapped in a
forward reference. -/
theorem getDirectiveMetadata_cached_idempotent (env : ResolverEnv)
    (t : RVal) (s : ResolverState) (m : CompileDirectiveMetadata)
    (s1 : ResolverState)
    (h : getDirectiveMetadata env t s = (.ok m, s1)) :
    getDirectiveMetadata env t s1 = (.ok m, s1) ∧
    getDirectiveMetadata env (.vfwd (resolveForwardRef t)) s1 =
      (.ok m, s1) := by
  have hfwd : resolveForwardRef (.vfwd (resolveForwardRef t)) =
      resolveForwardRef t := rfl
  simp only [getDirectiveMetadata] at h ⊢
  rw [hfwd]
  rcases hc : findEntry s.directiveCache (resolveForwardRef t) with _ | meta
  · rw [hc] at h
    rcases hcm : computeDirectiveMetadata env (resolveForwardRef t) s.anon
      with ⟨r, a1⟩
    rw [hcm] at h
    cases r with
    | error e => simp at h
    | ok meta =>
      simp only [Prod.mk.injEq, Except.ok.injEq] at h
      obtain ⟨hm, hs⟩ := h
      subst hm
      subst hs
      simp [findEntry_setEntry_self]
  · rw [hc] at h
    simp only [Prod.mk.injEq, Except.ok.injEq] at h
    obtain ⟨hm, hs⟩ := h
    subst hm
    subst hs
    simp [hc]

/-- Witness for C5 at the concrete directive `Dir5`: the second resolution
(also through a forward reference) returns the identical cached record with
the state unchanged. -/
theorem getDirectiveMetadata_cached_idempotent_witness :
    getDirectiveMetadata env5 c5Type c5S1 = (.ok c5Meta, c5S1) ∧
    getDirectiveMetadata env5 (.vfwd (resolveForwardRef c5Type)) c5S1 =
      (.ok c5Meta, c5S1) :=
  getDirectiveMetadata_cached_idempotent env5 c5Type initialResolverState
    c5Meta c5S1 (by decide)

theorem findEntry_delEntry_self {α : Type} (l : List (RVal × α)) (k : RVal) :
    findEntry (delEntry l k) k = none := by
  induction l with
  | nil => rfl
  | cons e rest ih =>
    rcases e with ⟨k1, v1⟩
    by_cases hk : k1 = k
    · simp [delEntry, hk, ih]
    · simp [delEntry, findEntry, hk, ih]

theorem findEntry_delEntry_ne {α : Type} (l : List (RVal × α)) (k u : RVal)
    (h : u ≠ k) : findEntry (delEntry l k) u = findEntry l u := by
  have h2 : ¬ k = u := fun hh => h hh.symm
  induction l with
  | nil => rfl
  | cons e rest ih =>
    rcases e with ⟨k1, v1⟩
    by_cases hk : k1 = k
    · subst hk
      simp [delEntry, findEntry, h2, ih]
    · simp [delEntry, findEntry, hk, ih]

/-- C7: confirmed.  `clearCacheFor t` evicts exactly `t` from the
directive, pipe and module caches (every other type's entries are
unchanged), leaves the anonymous-identity state untouched, a cached other
type still resolves to its cached entry with no state change, and the next
resolution of `t` behaves exactly like a resolution with all caches cleared
(it recomputes). -/
theorem clearCacheFor_exact (env : ResolverEnv) (t u : RVal)
    (s : ResolverState) (m : CompileDirectiveMetadata)
    (ht : resolveForwardRef t = t) (hu : resolveForwardRef u = u)
    (hne : u ≠ t) (hm : findEntry s.directiveCache u = some m) :
    findEntry (clearCacheFor t s).directiveCache t = none ∧
    findEntry (clearCacheFor t s).pipeCache t = none ∧
    findEntry (clearCacheFor t s).appModuleCache t = none ∧
    findEntry (clearCacheFor t s).directiveCache u =
      findEntry s.directiveCache u ∧
    findEntry (clearCacheFor t s).pipeCache u = findEntry s.pipeCache u ∧
    findEntry (clearCacheFor t s).appModuleCache u =
      findEntry s.appModuleCache u ∧
    (clearCacheFor t s).anon = s.anon ∧
    getDirectiveMetadata env u (clearCacheFor t s) =
      (.ok m, clearCacheFor t s) ∧
    (getDirectiveMetadata env t (clearCacheFor t s)).1 =
      (getDirectiveMetadata env t (clearCache s)).1 := by
  refine ⟨findEntry_delEntry_self .., findEntry_delEntry_self ..,
    findEntry_delEntry_self .., findEntry_delEntry_ne _ _ _ hne,
    findEntry_delEntry_ne _ _ _ hne, findEntry_delEntry_ne _ _ _ hne,
    rfl, ?_, ?_⟩
  · simp only [getDirectiveMetadata, hu, clearCacheFor]
    rw [findEntry_delEntry_ne _ _ _ hne, hm]
  · simp only [getDirectiveMetadata, ht, clearCacheFor, clearCache]
    rw [findEntry_delEntry_self]
    simp only [findEntry]
    rcases hcm : computeDirectiveMetadata env t s.anon with ⟨r, a1⟩
    cases r <;> simp

/-- Witness for C7 at a state caching `TA` and `TB`: clearing `TA` leaves
`TB` resolvable from the cache and evicts exactly `TA`. -/
theorem clearCacheFor_exact_witness :
    findEntry (clearCacheFor c7tA c7s).directiveCache c7tA = none ∧
    findEntry (clearCacheFor c7tA c7s).pipeCache c7tA = none ∧
    findEntry (clearCacheFor c7tA c7s).appModuleCache c7tA = none ∧
    findEntry (clearCacheFor c7tA c7s).directiveCache c7tB =
      findEntry c7s.directiveCache c7tB ∧
    findEntry (clearCacheFor c7tA c7s).pipeCache c7tB =
      findEntry c7s.pipeCache c7tB ∧
    findEntry (clearCacheFor c7tA c7s).appModuleCache c7tB =
      findEntry c7s.appModuleCache c7tB ∧
    (clearCacheFor c7tA c7s).anon = c7s.anon ∧
    getDirectiveMetadata defaultEnv c7tB (clearCacheFor c7tA c7s) =
      (.ok default, clearCacheFor c7tA c7s) ∧
    (getDirectiveMetadata defaultEnv c7tA (clearCacheFor c7tA c7s)).1 =
      (getDirectiveMetadata defaultEnv c7tA (clearCache c7s)).1 :=
  clearCacheFor_exact defaultEnv c7tA c7tB c7s default (by decide) (by decide)
    (by decide) (by decide)

/-- C9 counterexample: for `D9` the directive resolver succeeds (so the
failure is not the not-annotated-as-directive one); the resolution then
fails on an invalid provider whose message happens to contain the watched
substring, and `maybeGetDirectiveMetadata` converts that unrelated error to
a null result instead of re-raising it. -/
theorem maybeGetDirectiveMetadata_substring_cex :
    env9.directiveResolver c9Type = .ok dirAnn9 ∧
    (getDirectiveMetadata env9 c9Type initialResolverState).1 =
      .error "Invalid provider - only instances of Provider and Type are allowed, got: No Directive annotation" ∧
    maybeGetDirectiveMetadata env9 c9Type initialResolverState =
      (.ok none, initialResolverState) := by decide

/-- C9 amended: `maybeGetDirectiveMetadata` passes successes through, and
classifies failures purely by message text: any error whose message
contains the substring "No Directive annotation" (the not-annotated
failure, but also any other error whose text happens to contain it)
becomes a null result, while an error without that substring is re-raised
unchanged, state included. -/
theorem maybeGetDirectiveMetadata_message_filter :
    (∀ env t s m s1, getDirectiveMetadata env t s = (.ok m, s1) →
      maybeGetDirectiveMetadata env t s = (.ok (some m), s1)) ∧
    (∀ env t s e s1, getDirectiveMetadata env t s = (.error e, s1) →
      strContains e "No Directive annotation" = true →
      maybeGetDirectiveMetadata env t s = (.ok none, s1)) ∧
    (∀ env t s e s1, getDirectiveMetadata env t s = (.error e, s1) →
      strContains e "No Directive annotation" = false →
      maybeGetDirectiveMetadata env t s = (.error e, s1)) := by
  refine ⟨?_, ?_, ?_⟩ <;>
    (intro env t s e s1 h
     try intro hsub) <;>
    simp_all [maybeGetDirectiveMetadata]

/-- Witness for the amended C9: a success passes through, the genuine
not-annotated failure becomes null, and an unrelated error ("boom") is
re-raised unchanged. -/
theorem maybeGetDirectiveMetadata_message_filter_witness :
    maybeGetDirectiveMetadata env5 c5Type initialResolverState =
      (.ok (some c5Meta), c5S1) ∧
    maybeGetDirectiveMetadata defaultEnv c9Type initialResolverState =
      (.ok none, initialResolverState) ∧
    maybeGetDirectiveMetadata envBoom c9Type initialResolverState =
      (.error "boom", initialResolverState) :=
  ⟨maybeGetDirectiveMetadata_message_filter.1 env5 c5Type
      initialResolverState c5Meta c5S1 (by decide),
   maybeGetDirectiveMetadata_message_filter.2.1 defaultEnv c9Type
      initialResolverState "No Directive annotation found on D9"
      initialResolverState (by decide) (by decide),
   maybeGetDirectiveMetadata_message_filter.2.2 envBoom c9Type
      initialResolverState "boom" initialResolverState (by decide)
      (by decide)⟩

set_option maxHeartbeats 1600000

/-- C4: confirmed.  For module `A` nesting `B` nesting `C` (arbitrary type
identities, each declaring one provider and one directive), resolving `A`
yields the modules list `[B, C]` in transitive nesting order and
provider/directive lists concatenated in declaration order across `A`, `B`
and `C`; and when `A` nests `[B, B]`, the repeated inclusion is preserved
without deduplication (`[B, C, B, C]`, providers and directives repeated
likewise). -/
theorem module_flattening_transitive (na nb nc pa pb pc fuel : Nat) :
    (getAppModuleMetadata (chainEnv na nb nc pa pb pc) (fuel + 3)
        (.vtype na "A") none initialResolverState).1 =
      .ok { type := { name := "A", moduleUrl := none,
                      runtime := .vtype na "A", diDeps := [] },
            providers :=
              [.typ { name := "PA", moduleUrl := none,
                      runtime := .vtype pa "PA", diDeps := [] },
               .typ { name := "PB", moduleUrl := none,
                      runtime := .vtype pb "PB", diDeps := [] },
               .typ { name := "PC", moduleUrl := none,
                      runtime := .vtype pc "PC", diDeps := [] }],
            directives :=
              [{ name := "DA", moduleUrl := some "/da.ts",
                 runtime := .vstatic "DA" "/da.ts", diDeps := [] },
               { name := "DB", moduleUrl := some "/db.ts",
                 runtime := .vstatic "DB" "/db.ts", diDeps := [] },
               { name := "DC", moduleUrl := some "/dc.ts",
                 runtime := .vstatic "DC" "/dc.ts", diDeps := [] }],
            pipes := [], precompile := [],
            modules :=
              [{ name := "B", moduleUrl := none,
                 runtime := .vtype nb "B", diDeps := [] },
               { name := "C", moduleUrl := none,
                 runtime := .vtype nc "C", diDeps := [] }] } ∧
    (getAppModuleMetadata (dupEnv na nb nc pa pb pc) (fuel + 3)
        (.vtype na "A") none initialResolverState).1 =
      .ok { type := { name := "A", moduleUrl := none,
                      runtime := .vtype na "A", diDeps := [] },
            providers :=
              [.typ { name := "PA", moduleUrl := none,
                      runtime := .vtype pa "PA", diDeps := [] },
               .typ { name := "PB", moduleUrl := none,
                      runtime := .vtype pb "PB", diDeps := [] },
               .typ { name := "PC", moduleUrl := none,
                      runtime := .vtype pc "PC", diDeps := [] },
               .typ { name := "PB", moduleUrl := none,
                      runtime := .vtype pb "PB", diDeps := [] },
               .typ { name := "PC", moduleUrl := none,
                      runtime := .vtype pc "PC", diDeps := [] }],
            directives :=
              [{ name := "DA", moduleUrl := some "/da.ts",
                 runtime := .vstatic "DA" "/da.ts", diDeps := [] },
               { name := "DB", moduleUrl := some "/db.ts",
                 runtime := .vstatic "DB" "/db.ts", diDeps := [] },
               { name := "DC", moduleUrl := some "/dc.ts",
                 runtime := .vstatic "DC" "/dc.ts", diDeps := [] },
               { name := "DB", moduleUrl := some "/db.ts",
                 runtime := .vstatic "DB" "/db.ts", diDeps := [] },
               { name := "DC", moduleUrl := some "/dc.ts",
                 runtime := .vstatic "DC" "/dc.ts", diDeps := [] }],
            pipes := [], precompile := [],
            modules :=
              [{ name := "B", moduleUrl := none,
                 runtime := .vtype nb "B", diDeps := [] },
               { name := "C", moduleUrl := none,
                 runtime := .vtype nc "C", diDeps := [] },
               { name := "B", moduleUrl := none,
                 runtime := .vtype nb "B", diDeps := [] },
               { name := "C", moduleUrl := none,
                 runtime := .vtype nc "C", diDeps := [] }] } := by
  constructor <;>
    simp [getAppModuleMetadata, appModuleFold, chainEnv, dupEnv, defaultEnv,
      getProvidersMetadata, providerEntry, getTypeMetadata,
      getDependenciesMetadata, dependenciesOf, sanitizeTokenName, stringify,
      strHasChar, sanitizeIdentifier, findEntry, setEntry, mapTypes,
      flattenArr, staticTypeModuleUrl, isPresent, isBlank, isValidType,
      resolveForwardRef, RVal.toList, RVal.isArray, PMetaNode.toList,
      initialResolverState, anonInit, List.findSome?]

set_option maxHeartbeats 200000

set_option maxHeartbeats 3200000

/-- C8 amended: when a raw annotation is supplied directly, caching is
bypassed for the supplied module type — none of the three caches is
touched by the call (provided the annotation nests no modules, nested
modules being resolved reflectively through the cache), and the result is
computed fresh from the supplied annotation: it does not depend on any
cache content, only on the anonymous-naming state.  When no annotation is
supplied, the type is not cached and the reflective lookup yields no module
annotation, the call fails with the could-not-compile error and an
unchanged state. -/
theorem getAppModuleMetadata_supplied_meta_bypass :
    (∀ env fuel T ann s, ann.modules = RVal.vnull →
      (getAppModuleMetadata env (fuel + 1) T (some ann) s).2.directiveCache
          = s.directiveCache ∧
      (getAppModuleMetadata env (fuel + 1) T (some ann) s).2.pipeCache
          = s.pipeCache ∧
      (getAppModuleMetadata env (fuel + 1) T (some ann) s).2.appModuleCache
          = s.appModuleCache) ∧
    (∀ env fuel T ann s s2, ann.modules = RVal.vnull → s2.anon = s.anon →
      (getAppModuleMetadata env (fuel + 1) T (some ann) s).1 =
      (getAppModuleMetadata env (fuel + 1) T (some ann) s2).1) ∧
    (∀ env fuel T s,
      findEntry s.appModuleCache (resolveForwardRef T) = none →
      (env.annotations (resolveForwardRef T)).findSome?
        (fun an => match an with
          | .appModule m => some m
          | _ => none) = none →
      getAppModuleMetadata env (fuel + 1) T none s =
        (.error ("Could not compile " ++ apos ++
          stringify (resolveForwardRef T) ++ apos ++
          " because it is not an AppModule."), s)) := by
  refine ⟨?_, ?_, ?_⟩
  · intro env fuel T ann s hnm
    rcases hfe : findEntry s.appModuleCache (resolveForwardRef T) with _ | cm <;>
    · simp only [getAppModuleMetadata, hfe, hnm, Option.isNone, isPresent,
        isBlank, Bool.not_true, Bool.false_eq_true, reduceIte]
      repeat' split
      all_goals exact ⟨rfl, rfl, rfl⟩
  · intro env fuel T ann s s2 hnm hanon
    rcases hfe : findEntry s.appModuleCache (resolveForwardRef T) with _ | cm <;>
    rcases hfe2 : findEntry s2.appModuleCache (resolveForwardRef T) with _ | cm2 <;>
    · simp only [getAppModuleMetadata, hfe, hfe2, hnm, hanon, Option.isNone,
        isPresent, isBlank, Bool.not_true, Bool.false_eq_true, reduceIte]
      repeat' split
      all_goals simp_all
  · intro env fuel T s hfe hann
    simp only [getAppModuleMetadata, hfe, hann, Option.isNone]

set_option maxHeartbeats 200000

/-- C8 counterexample: resolving `A8` with its raw annotation supplied
directly (the annotation nests `B8`) does update the module cache — the
nested module `B8` is cached by the call, so "the cache is not updated by
the call" fails as stated. -/
theorem getAppModuleMetadata_supplied_meta_cex :
    (findEntry c8Run.2.appModuleCache c8B).isSome = true ∧
    findEntry initialResolverState.appModuleCache c8B = none ∧
    findEntry c8Run.2.appModuleCache c8A = none := by decide

/-- Witness for the amended C8: with a no-nested-modules annotation the
caches are untouched and a junk cached entry for `A8` does not change the
result; with no annotation and no reflective one, the call fails. -/
theorem getAppModuleMetadata_supplied_meta_bypass_witness :
    ((getAppModuleMetadata env8 5 c8A (some c8AnnB) c8sJunk).2.directiveCache
        = c8sJunk.directiveCache ∧
     (getAppModuleMetadata env8 5 c8A (some c8AnnB) c8sJunk).2.pipeCache
        = c8sJunk.pipeCache ∧
     (getAppModuleMetadata env8 5 c8A (some c8AnnB) c8sJunk).2.appModuleCache
        = c8sJunk.appModuleCache) ∧
    (getAppModuleMetadata env8 5 c8A (some c8AnnB) c8sJunk).1 =
      (getAppModuleMetadata env8 5 c8A (some c8AnnB)
        initialResolverState).1 ∧
    getAppModuleMetadata defaultEnv 5 c8A none initialResolverState =
      (.error ("Could not compile " ++ apos ++
        stringify (resolveForwardRef c8A) ++ apos ++
        " because it is not an AppModule."), initialResolverState) :=
  ⟨getAppModuleMetadata_supplied_meta_bypass.1 env8 4 c8A c8AnnB c8sJunk
      (by decide),
   getAppModuleMetadata_supplied_meta_bypass.2.1 env8 4 c8A c8AnnB c8sJunk
      initialResolverState (by decide) (by decide),
   getAppModuleMetadata_supplied_meta_bypass.2.2 defaultEnv 4 c8A
      initialResolverState (by decide) (by decide)⟩

theorem natChars_ne_nil (n : Nat) : natChars n ≠ [] := by
  rw [natChars]
  split <;> simp

theorem digitChar_inj :
    ∀ d, d < 10 → ∀ e, e < 10 → digitChar d = digitChar e → d = e := by
  decide

theorem digitChar_alphanum : ∀ d, d < 10 → (digitChar d).isAlphanum = true := by
  decide

theorem natChars_inj : ∀ n m : Nat, natChars n = natChars m → n = m := by
  intro n
  induction n using Nat.strong_induction_on with
  | _ n ih =>
    intro m h
    conv at h => lhs; rw [natChars]
    conv at h => rhs; rw [natChars]
    by_cases hn : n < 10 <;> by_cases hm : m < 10
    · simp only [hn, hm, reduceIte, List.cons.injEq, and_true] at h
      exact digitChar_inj n hn m hm h
    · simp only [hn, hm, reduceIte] at h
      have hlen := congrArg List.length h
      simp only [List.length_cons, List.length_append, List.length_nil] at hlen
      have h0 : (natChars (m / 10)).length = 0 := by omega
      exact absurd (List.length_eq_zero.mp h0) (natChars_ne_nil (m / 10))
    · simp only [hn, hm, reduceIte] at h
      have hlen := congrArg List.length h
      simp only [List.length_cons, List.length_append, List.length_nil] at hlen
      have h0 : (natChars (n / 10)).length = 0 := by omega
      exact absurd (List.length_eq_zero.mp h0) (natChars_ne_nil (n / 10))
    · simp only [hn, hm, reduceIte] at h
      obtain ⟨h1, h2⟩ := List.append_inj' h (by simp)
      have hd : n % 10 = m % 10 := by
        simp only [List.cons.injEq, and_true] at h2
        exact digitChar_inj (n % 10) (Nat.mod_lt n (by omega)) (m % 10)
          (Nat.mod_lt m (by omega)) h2
      have hq : n / 10 = m / 10 :=
        ih (n / 10) (Nat.div_lt_self (by omega) (by omega)) (m / 10) h1
      omega

theorem natChars_alphanum :
    ∀ n : Nat, ∀ c ∈ natChars n, (c.isAlphanum || c == '_') = true := by
  intro n
  induction n using Nat.strong_induction_on with
  | _ n ih =>
    intro c hc
    rw [natChars] at hc
    by_cases hn : n < 10
    · simp only [hn, List.mem_singleton, reduceIte] at hc
      subst hc
      simp [digitChar_alphanum n hn]
    · simp only [hn, reduceIte, List.mem_append, List.mem_singleton] at hc
      rcases hc with hc | hc
      · exact ih (n / 10) (Nat.div_lt_self (by omega) (by omega)) c hc
      · subst hc
        simp [digitChar_alphanum (n % 10) (Nat.mod_lt n (by omega))]

theorem map_sanitize_id (l : List Char)
    (h : ∀ c ∈ l, (c.isAlphanum || c == '_') = true) :
    l.map (fun c => if c.isAlphanum || c == '_' then c else '_') = l := by
  induction l with
  | nil => rfl
  | cons c rest ih =>
    have hc := h c (by simp)
    simp only [List.map_cons, hc, reduceIte]
    rw [ih (fun d hd => h d (by simp [hd]))]

theorem sanitizeIdentifier_data (s : String) :
    (sanitizeIdentifier s).data =
    s.data.map (fun c => if c.isAlphanum || c == '_' then c else '_') := rfl

theorem sanitize_anon (k : Nat) :
    sanitizeIdentifier ("anonymous_token_" ++ natStr k ++ "_") =
    "anonymous_token_" ++ natStr k ++ "_" := by
  apply strExt
  rw [sanitizeIdentifier_data]
  simp only [strAppendData, List.map_append]
  rw [map_sanitize_id ((natStr k).data) (natChars_alphanum k)]
  congr 1

theorem anonName_inj (k k2 : Nat)
    (h : "anonymous_token_" ++ natStr k ++ "_" =
         "anonymous_token_" ++ natStr k2 ++ "_") : k = k2 := by
  have hd := congrArg String.data h
  simp only [strAppendData, List.append_assoc] at hd
  have h2 := List.append_cancel_left hd
  obtain ⟨h3, _⟩ := List.append_inj' h2 (by simp)
  exact natChars_inj k k2 h3

theorem findEntry_some_mem {α : Type} (l : List (RVal × α)) (k : RVal)
    (v : α) (h : findEntry l k = some v) : (k, v) ∈ l := by
  induction l with
  | nil => simp [findEntry] at h
  | cons e rest ih =>
    rcases e with ⟨k1, v1⟩
    by_cases hk : k1 = k
    · subst hk
      simp [findEntry] at h
      simp [h]
    · simp [findEntry, hk] at h
      simp [ih h]

/-- C6: confirmed.  From any well-formed anonymous-naming state, two
distinct anonymous entities (stringifying to a call-like form) receive
different synthetic names; resolving either entity again afterwards
returns the identical name with no state change; and neither `clearCache`
nor `clearCacheFor` touches the anonymous-naming state. -/
theorem anonymous_token_naming (a : AnonState) (u v : RVal)
    (hwf : AnonWF a)
    (hu : strHasChar (stringify u) '(' = true)
    (hv : strHasChar (stringify v) '(' = true)
    (huv : u ≠ v) :
    (sanitizeTokenName u a).1 ≠
      (sanitizeTokenName v (sanitizeTokenName u a).2).1 ∧
    sanitizeTokenName u (sanitizeTokenName v (sanitizeTokenName u a).2).2 =
      ((sanitizeTokenName u a).1,
       (sanitizeTokenName v (sanitizeTokenName u a).2).2) ∧
    sanitizeTokenName v (sanitizeTokenName v (sanitizeTokenName u a).2).2 =
      ((sanitizeTokenName v (sanitizeTokenName u a).2).1,
       (sanitizeTokenName v (sanitizeTokenName u a).2).2) ∧
    (∀ s : ResolverState, (clearCache s).anon = s.anon ∧
      ∀ t, (clearCacheFor t s).anon = s.anon) := by
  have hvu : v ≠ u := fun h => huv h.symm
  have hne : ∀ k1 k2 : Nat, k1 ≠ k2 →
      sanitizeIdentifier ("anonymous_token_" ++ natStr k1 ++ "_") ≠
      sanitizeIdentifier ("anonymous_token_" ++ natStr k2 ++ "_") := by
    intro k1 k2 hk
    rw [sanitize_anon, sanitize_anon]
    intro hh
    exact hk (anonName_inj k1 k2 hh)
  rcases hku : findEntry a.anonymousTypes u with _ | k1
  · have e1 : sanitizeTokenName u a =
        (sanitizeIdentifier
          ("anonymous_token_" ++ natStr a.anonymousTypeIndex ++ "_"),
         { anonymousTypes :=
             setEntry a.anonymousTypes u a.anonymousTypeIndex,
           anonymousTypeIndex := a.anonymousTypeIndex + 1 }) := by
      simp [sanitizeTokenName, hu, hku]
    have hfv0 : findEntry (setEntry a.anonymousTypes u a.anonymousTypeIndex) v
        = findEntry a.anonymousTypes v :=
      findEntry_setEntry_ne _ _ _ _ hvu
    rcases hkv : findEntry a.anonymousTypes v with _ | k2
    · have hfv : findEntry
          (setEntry a.anonymousTypes u a.anonymousTypeIndex) v = none := by
        rw [hfv0, hkv]
      have e2 : sanitizeTokenName v (sanitizeTokenName u a).2 =
          (sanitizeIdentifier
            ("anonymous_token_" ++ natStr (a.anonymousTypeIndex + 1) ++ "_"),
           { anonymousTypes :=
               setEntry (setEntry a.anonymousTypes u a.anonymousTypeIndex)
                 v (a.anonymousTypeIndex + 1),
             anonymousTypeIndex := a.anonymousTypeIndex + 2 }) := by
        rw [e1]
        simp [sanitizeTokenName, hv, hfv]
      have hfu2 : findEntry
          (setEntry (setEntry a.anonymousTypes u a.anonymousTypeIndex) v
            (a.anonymousTypeIndex + 1)) u = some a.anonymousTypeIndex := by
        rw [findEntry_setEntry_ne _ _ _ _ huv, findEntry_setEntry_self]
      have hfv2 : findEntry
          (setEntry (setEntry a.anonymousTypes u a.anonymousTypeIndex) v
            (a.anonymousTypeIndex + 1)) v =
          some (a.anonymousTypeIndex + 1) :=
        findEntry_setEntry_self ..
      refine ⟨?_, ?_, ?_, fun s => ⟨rfl, fun t => rfl⟩⟩
      · rw [e2, e1]
        exact hne _ _ (by omega)
      · rw [e2, e1]
        try simp [sanitizeTokenName, hu, hfu2]
      · rw [e2]
        try simp [sanitizeTokenName, hv, hfv2]
    · have hfv : findEntry
          (setEntry a.anonymousTypes u a.anonymousTypeIndex) v = some k2 := by
        rw [hfv0, hkv]
      have hk2lt : k2 < a.anonymousTypeIndex :=
        hwf.2 (v, k2) (findEntry_some_mem _ _ _ hkv)
      have e2 : sanitizeTokenName v (sanitizeTokenName u a).2 =
          (sanitizeIdentifier ("anonymous_token_" ++ natStr k2 ++ "_"),
           { anonymousTypes :=
               setEntry a.anonymousTypes u a.anonymousTypeIndex,
             anonymousTypeIndex := a.anonymousTypeIndex + 1 }) := by
        rw [e1]
        simp [sanitizeTokenName, hv, hfv]
      have hfu2 : findEntry
          (setEntry a.anonymousTypes u a.anonymousTypeIndex) u =
          some a.anonymousTypeIndex := findEntry_setEntry_self ..
      refine ⟨?_, ?_, ?_, fun s => ⟨rfl, fun t => rfl⟩⟩
      · rw [e2, e1]
        exact hne _ _ (by omega)
      · rw [e2, e1]
        try simp [sanitizeTokenName, hu, hfu2]
      · rw [e2]
        try simp [sanitizeTokenName, hv, hfv]
  · have hk1lt : k1 < a.anonymousTypeIndex :=
      hwf.2 (u, k1) (findEntry_some_mem _ _ _ hku)
    have e1 : sanitizeTokenName u a =
        (sanitizeIdentifier ("anonymous_token_" ++ natStr k1 ++ "_"), a) := by
      simp [sanitizeTokenName, hu, hku]
    rcases hkv : findEntry a.anonymousTypes v with _ | k2
    · have e2 : sanitizeTokenName v (sanitizeTokenName u a).2 =
          (sanitizeIdentifier
            ("anonymous_token_" ++ natStr a.anonymousTypeIndex ++ "_"),
           { anonymousTypes :=
               setEntry a.anonymousTypes v a.anonymousTypeIndex,
             anonymousTypeIndex := a.anonymousTypeIndex + 1 }) := by
        rw [e1]
        simp [sanitizeTokenName, hv, hkv]
      have hfu2 : findEntry
          (setEntry a.anonymousTypes v a.anonymousTypeIndex) u = some k1 := by
        rw [findEntry_setEntry_ne _ _ _ _ huv, hku]
      have hfv2 : findEntry
          (setEntry a.anonymousTypes v a.anonymousTypeIndex) v =
          some a.anonymousTypeIndex := findEntry_setEntry_self ..
      refine ⟨?_, ?_, ?_, fun s => ⟨rfl, fun t => rfl⟩⟩
      · rw [e2, e1]
        exact hne _ _ (by omega)
      · rw [e2, e1]
        try simp [sanitizeTokenName, hu, hfu2]
      · rw [e2]
        try simp [sanitizeTokenName, hv, hfv2]
    · have hsym : Symmetric (fun e1 e2 : RVal × Nat => e1.2 ≠ e2.2) :=
        fun x y hxy heq => hxy heq.symm
      have hkk : k1 ≠ k2 :=
        List.Pairwise.forall hsym hwf.1
          (findEntry_some_mem _ _ _ hku) (findEntry_some_mem _ _ _ hkv)
          (fun hp => huv (congrArg Prod.fst hp))
      have e2 : sanitizeTokenName v (sanitizeTokenName u a).2 =
          (sanitizeIdentifier ("anonymous_token_" ++ natStr k2 ++ "_"), a) := by
        rw [e1]
        simp [sanitizeTokenName, hv, hkv]
      refine ⟨?_, ?_, ?_, fun s => ⟨rfl, fun t => rfl⟩⟩
      · rw [e2, e1]
        exact hne _ _ hkk
      · rw [e2, e1]
        try simp [sanitizeTokenName, hu, hku]
      · rw [e2]
        try simp [sanitizeTokenName, hv, hkv]

/-- Witness for C6: two distinct closures with identical source text get
the names `anonymous_token_0_` and `anonymous_token_1_`, which differ, and
repeated resolution is stable. -/
theorem anonymous_token_naming_witness :
    (sanitizeTokenName c6u anonInit).1 ≠
      (sanitizeTokenName c6v (sanitizeTokenName c6u anonInit).2).1 ∧
    sanitizeTokenName c6u
        (sanitizeTokenName c6v (sanitizeTokenName c6u anonInit).2).2 =
      ((sanitizeTokenName c6u anonInit).1,
       (sanitizeTokenName c6v (sanitizeTokenName c6u anonInit).2).2) ∧
    sanitizeTokenName c6v
        (sanitizeTokenName c6v (sanitizeTokenName c6u anonInit).2).2 =
      ((sanitizeTokenName c6v (sanitizeTokenName c6u anonInit).2).1,
       (sanitizeTokenName c6v (sanitizeTokenName c6u anonInit).2).2) ∧
    (∀ s : ResolverState, (clearCache s).anon = s.anon ∧
      ∀ t, (clearCacheFor t s).anon = s.anon) :=
  anonymous_token_naming anonInit c6u c6v
    (by simp [AnonWF, anonInit]) (by decide) (by decide) (by decide)

/-- Witness for C2 at the concrete directive `MyDir` with a single
query-only parameter. -/
theorem dependency_unresolved_iff_no_token_witness :
    getDependenciesMetadata defaultEnv c2Type
      (.vcons (.vcons (.vquery 0 false false .vnil (.vstr "sel") false true
        .vnull) .vnil) .vnil) anonInit =
    (.error ("Can" ++ apos ++ "t resolve all parameters for " ++
      stringify c2Type ++ ": (?)."), anonInit) :=
  dependency_unresolved_iff_no_token.2 defaultEnv c2Type anonInit 0 false
    false .vnil (.vstr "sel") false true .vnull
